import Mathlib

/-!
Shallow embedding of the BlockTicket contract layer:
`OracleConsumer.sol`, `EventRegistry.sol`, `TicketNFT.sol` and `Marketplace.sol`
(the latter also pulls in the OpenZeppelin v5 `ERC721._update` pipeline that
`TicketNFT` overrides).  Addresses and hashes are modelled as `Nat` with `0`
standing for the zero address / empty `bytes32`.  Solidity 0.8 checked
arithmetic aborts on overflow or underflow; where an intermediate expression
of the source could overflow its machine width we insert an explicit abort.
A reverted call leaves the state unchanged; calls are serialized (the
contracts guard every mutating entry point with `nonReentrant`), so each
external call is one atomic step of the state machine below.
-/

namespace BlockTicket

abbrev Addr := Nat
abbrev Err := String

/-- Pointwise update of a map with `Nat` keys. -/
def upd {α : Type} (f : Nat → α) (k : Nat) (v : α) : Nat → α :=
  fun x => if x = k then v else f x

/-- Pointwise update of a two-key map. -/
def upd2 {α : Type} (f : Nat → Nat → α) (k1 k2 : Nat) (v : α) : Nat → Nat → α :=
  fun x y => if x = k1 ∧ y = k2 then v else f x y

/-- `OracleConsumer.OracleIdentity`: one KYC attestation per wallet. -/
structure OracleIdentity where
  identityHash : Nat
  maxTickets : Nat
  blocked : Bool
  expiry : Nat
  deriving Repr, DecidableEq

/-- `EventRegistry.EventInfo`. -/
structure EventInfo where
  organizer : Addr
  ticketContract : Addr
  saleStart : Nat
  saleEnd : Nat
  eventStart : Nat
  basePriceWei : Nat
  cancelled : Bool
  deriving Repr, DecidableEq

/-- `TicketNFT.TicketStatus`. -/
inductive TicketStatus where
  | VALID | USED | CANCELLED | REFUNDED
  deriving Repr, DecidableEq

/-- `Marketplace.Listing` (escrow model, stored by tokenId). -/
structure Listing where
  seller : Addr
  priceWei : Nat
  active : Bool
  deriving Repr, DecidableEq

/-- `Marketplace.EventConfig` (resale policy for one event). -/
structure EventConfig where
  resaleEnabled : Bool
  resaleCapBps : Nat
  maxResales : Nat
  royaltyBps : Nat
  deriving Repr, DecidableEq

/-- `TicketNFT` access-control roles (`DEFAULT_ADMIN_ROLE`, `MINTER_ROLE`,
`CHECKIN_ROLE`). -/
inductive Role where
  | admin | minterRole | checkinRole
  deriving Repr, DecidableEq

/-- The combined storage of the four deployed contracts plus the pieces of the
execution environment the contracts observe: account balances, whether a plain
value call made out towards an address succeeds (the recipient may be a contract that
rejects), and the block timestamp. `mkAddr` and `nftAddr` are the deployed
addresses of `Marketplace` (its `address(this)`) and `TicketNFT`
(`address(tickets)`). -/
structure Chain where
  -- OracleConsumer storage
  oracleOwner : Addr
  oracle : Addr
  identities : Addr → OracleIdentity
  -- EventRegistry storage
  registryOwner : Addr
  nextEventId : Nat
  events : Nat → EventInfo
  -- TicketNFT storage
  nftAdmin : Addr → Bool
  minter : Addr → Bool
  checkin : Addr → Bool
  nextTokenId : Nat
  marketplace : Addr
  ownerOf : Nat → Addr
  tokenApproval : Nat → Addr
  operatorApproval : Addr → Addr → Bool
  eventIdOf : Nat → Nat
  statusOf : Nat → TicketStatus
  -- Marketplace storage
  mkOwner : Addr
  purchasedByIdentity : Nat → Nat → Nat
  listings : Nat → Listing
  resaleCount : Nat → Nat
  eventConfig : Nat → EventConfig
  -- environment
  mkAddr : Addr
  nftAddr : Addr
  balances : Addr → Nat
  accepts : Addr → Bool
  time : Nat

/-- Solidity `require`: continue on success, abort with a revert message
otherwise. -/
def req (p : Prop) [Decidable p] (e : Err) : Except Err Unit :=
  if p then .ok () else .error e

/-- Credit an account. -/
def credit (b : Nat → Nat) (a : Addr) (amt : Nat) : Nat → Nat := upd b a (b a + amt)

/-- Debit an account (callers establish `amt ≤ b a`). -/
def debit (b : Nat → Nat) (a : Addr) (amt : Nat) : Nat → Nat := upd b a (b a - amt)

/-- Move `msg.value` from the caller into the Marketplace contract, as the
execution substrate does on entry of a payable function. -/
def payIn (s : Chain) (caller : Addr) (value : Nat) : Chain :=
  { s with balances := credit (debit s.balances caller value) s.mkAddr value }

/-- A low-level value call made by the Marketplace
(the low-level call and the `require(ok, emsg)` that follows it):
it succeeds when the recipient accepts plain value and the contract holds the
funds. -/
def sendValue (s : Chain) (dst : Addr) (amt : Nat) (emsg : Err) : Except Err Chain := do
  req (s.accepts dst = true ∧ amt ≤ s.balances s.mkAddr) emsg
  return { s with balances := credit (debit s.balances s.mkAddr amt) dst amt }

/-! ## OracleConsumer -/

/-- `OracleConsumer.updateIdentity`. -/
def updateIdentity (s : Chain) (caller wallet identityHash maxTickets : Nat)
    (blocked : Bool) (expiry : Nat) : Except Err Chain := do
  req (caller = s.oracle) "OracleConsumer: not oracle"
  req (wallet ≠ 0) "OracleConsumer: wallet=0"
  req (identityHash ≠ 0) "OracleConsumer: idHash=0"
  return { s with identities :=
    fun a => if a = wallet then ⟨identityHash, maxTickets, blocked, expiry⟩ else s.identities a }

/-- `OracleConsumer.setOracle`. -/
def setOracle (s : Chain) (caller newOracle : Addr) : Except Err Chain := do
  req (caller = s.oracleOwner) "Ownable: caller is not the owner"
  req (newOracle ≠ 0) "OracleConsumer: oracle=0"
  return { s with oracle := newOracle }

/-! ## EventRegistry -/

/-- `EventRegistry.createEvent`. -/
def createEvent (s : Chain) (caller ticketContract saleStart saleEnd eventStart basePriceWei : Nat) :
    Except Err Chain := do
  req (ticketContract ≠ 0) "EventRegistry: ticket=0"
  req (saleStart < saleEnd) "EventRegistry: bad sale window"
  req (saleEnd ≤ eventStart) "EventRegistry: eventStart < saleEnd"
  req (0 < basePriceWei) "EventRegistry: price=0"
  return { s with
    nextEventId := s.nextEventId + 1,
    events := upd s.events s.nextEventId
      ⟨caller, ticketContract, saleStart, saleEnd, eventStart, basePriceWei, false⟩ }

/-- `EventRegistry.setCancelled`. -/
def setCancelled (s : Chain) (caller eventId : Nat) (flag : Bool) : Except Err Chain := do
  req ((s.events eventId).organizer ≠ 0) "EventRegistry: no such event"
  req (caller = (s.events eventId).organizer ∨ caller = s.registryOwner)
    "EventRegistry: not authorized"
  return { s with events := upd s.events eventId { s.events eventId with cancelled := flag } }

/-- `EventRegistry.setTicketContract`. -/
def setTicketContract (s : Chain) (caller eventId ticketContract : Nat) : Except Err Chain := do
  req (caller = s.registryOwner) "Ownable: caller is not the owner"
  req (ticketContract ≠ 0) "EventRegistry: ticket=0"
  req ((s.events eventId).organizer ≠ 0) "EventRegistry: no such event"
  return { s with events := upd s.events eventId { s.events eventId with ticketContract := ticketContract } }

/-! ## TicketNFT -/

/-- `AccessControl.grantRole` as used on `TicketNFT` (the role admin of every
role is `DEFAULT_ADMIN_ROLE`). -/
def grantRole (s : Chain) (caller : Addr) (r : Role) (acct : Addr) : Except Err Chain := do
  req (s.nftAdmin caller = true) "AccessControl: account is missing role"
  return match r with
  | .admin => { s with nftAdmin := upd s.nftAdmin acct true }
  | .minterRole => { s with minter := upd s.minter acct true }
  | .checkinRole => { s with checkin := upd s.checkin acct true }

/-- `TicketNFT.setMarketplace`. -/
def setMarketplace (s : Chain) (caller newMarketplace : Addr) : Except Err Chain := do
  req (s.nftAdmin caller = true) "AccessControl: account is missing role"
  req (newMarketplace ≠ 0) "TicketNFT: marketplace=0"
  return { s with marketplace := newMarketplace }

/-- OpenZeppelin v5 `ERC721._update` together with the `TicketNFT` override:
authorization check when `auth ≠ 0`, clearing of the per-token approval and
the ownership write, then the anti-scalping restriction on transfers whose
two endpoints are non-zero. `msgSender` is `msg.sender` inside `TicketNFT`.
Returns the new state and the previous owner (`from`). -/
def erc721Update (s : Chain) (msgSender dst : Addr) (tokenId : Nat) (auth : Addr) :
    Except Err (Chain × Addr) := do
  let frm := s.ownerOf tokenId
  if auth ≠ 0 then
    req (frm = auth ∨ s.operatorApproval frm auth = true ∨ s.tokenApproval tokenId = auth)
      (if frm = 0 then "ERC721NonexistentToken" else "ERC721InsufficientApproval")
  let s1 : Chain :=
    if frm ≠ 0 then { s with tokenApproval := upd s.tokenApproval tokenId 0 } else s
  let s2 : Chain := { s1 with ownerOf := upd s1.ownerOf tokenId dst }
  if frm ≠ 0 ∧ dst ≠ 0 then
    req (s2.marketplace ≠ 0) "TicketNFT: marketplace not set"
    req (msgSender = s2.marketplace) "TicketNFT: transfers only via marketplace"
    req (s2.statusOf tokenId = TicketStatus.VALID) "TicketNFT: not transferable"
  return (s2, frm)

/-- `TicketNFT.mintTo` (`_safeMint` requires the token be fresh; the
receiver hook of `_safeMint` is modelled as accepting). -/
def mintTo (s : Chain) (caller dst : Addr) (eventId : Nat) : Except Err Chain := do
  req (s.minter caller = true) "AccessControl: account is missing role"
  req (dst ≠ 0) "TicketNFT: to=0"
  let tokenId := s.nextTokenId
  let s := { s with nextTokenId := s.nextTokenId + 1 }
  req (s.ownerOf tokenId = 0) "ERC721InvalidSender"
  let (s, _) ← erc721Update s caller dst tokenId 0
  return { s with
    eventIdOf := upd s.eventIdOf tokenId eventId,
    statusOf := upd s.statusOf tokenId TicketStatus.VALID }

/-- `ERC721.transferFrom` (also standing for `safeTransferFrom`, whose receiver
hook is modelled as accepting); `caller` is `msg.sender` inside `TicketNFT`. -/
def transferFrom (s : Chain) (caller frm dst : Addr) (tokenId : Nat) : Except Err Chain := do
  req (dst ≠ 0) "ERC721InvalidReceiver"
  let (s1, prev) ← erc721Update s caller dst tokenId caller
  req (prev = frm) "ERC721IncorrectOwner"
  return s1

/-- `ERC721.approve`. -/
def approve (s : Chain) (caller dst : Addr) (tokenId : Nat) : Except Err Chain := do
  req (s.ownerOf tokenId ≠ 0) "ERC721NonexistentToken"
  req (s.ownerOf tokenId = caller ∨ s.operatorApproval (s.ownerOf tokenId) caller = true)
    "ERC721InvalidApprover"
  return { s with tokenApproval := upd s.tokenApproval tokenId dst }

/-- `ERC721.setApprovalForAll`. -/
def setApprovalForAll (s : Chain) (caller op : Addr) (approved : Bool) : Except Err Chain := do
  req (op ≠ 0) "ERC721InvalidOperator"
  return { s with operatorApproval :=
    fun a b => if a = caller ∧ b = op then approved else s.operatorApproval a b }

/-- `TicketNFT.useTicket`. -/
def useTicket (s : Chain) (caller : Addr) (tokenId : Nat) : Except Err Chain := do
  req (s.checkin caller = true) "AccessControl: account is missing role"
  req (s.ownerOf tokenId ≠ 0) "ERC721NonexistentToken"
  req (s.statusOf tokenId = TicketStatus.VALID) "TicketNFT: not valid"
  return { s with statusOf := upd s.statusOf tokenId TicketStatus.USED }

/-- `TicketNFT.setStatus` (admin override; the source imposes no condition on
the current status). -/
def setStatus (s : Chain) (caller : Addr) (tokenId : Nat) (newStatus : TicketStatus) :
    Except Err Chain := do
  req (s.nftAdmin caller = true) "AccessControl: account is missing role"
  req (s.ownerOf tokenId ≠ 0) "ERC721NonexistentToken"
  return { s with statusOf := upd s.statusOf tokenId newStatus }

/-! ## Marketplace -/

/-- `Marketplace._requireKycEligible`, returning `(identityHash, maxTickets)`. -/
def requireKycEligible (s : Chain) (buyer : Addr) : Except Err (Nat × Nat) := do
  let o := s.identities buyer
  req (o.identityHash ≠ 0) "Marketplace: KYC required"
  req (o.blocked = false) "Marketplace: blocked"
  if o.expiry ≠ 0 then
    req (s.time ≤ o.expiry) "Marketplace: KYC expired"
  return (o.identityHash, o.maxTickets)

/-- `Marketplace.setEventConfig`. -/
def setEventConfig (s : Chain) (caller eventId : Nat) (resaleEnabled : Bool)
    (resaleCapBps maxResales royaltyBps : Nat) : Except Err Chain := do
  req ((s.events eventId).organizer ≠ 0) "Marketplace: invalid event"
  req (caller = (s.events eventId).organizer ∨ caller = s.mkOwner) "Marketplace: not authorized"
  req (10000 ≤ resaleCapBps) "Marketplace: cap < 100%"
  req (resaleCapBps ≤ 20000) "Marketplace: cap too high"
  req (royaltyBps ≤ 2000) "Marketplace: royalty too high"
  return { s with eventConfig := upd s.eventConfig eventId ⟨resaleEnabled, resaleCapBps, maxResales, royaltyBps⟩ }

/-- The minting loop of `buyPrimary`: `qty` calls of `tickets.mintTo`, made by
the Marketplace contract (so `msg.sender` inside `TicketNFT` is `mkAddr`). -/
def mintLoop (buyer : Addr) (eventId : Nat) : Nat → Chain → Except Err Chain
  | 0, s => .ok s
  | Nat.succ n, s => do
      let s1 ← mintTo s s.mkAddr buyer eventId
      mintLoop buyer eventId n s1

/-- `Marketplace.buyPrimary`. The leading balance condition and `payIn` model
the substrate moving `msg.value` into the contract before the body runs; the
two `2 ^ 32` / `2 ^ 256` conditions model checked machine arithmetic on
`already + qty` (`uint32`) and `e.basePriceWei * qty` (`uint256`). -/
def buyPrimary (s0 : Chain) (caller : Addr) (eventId qty value : Nat) : Except Err Chain := do
  req (value ≤ s0.balances caller) "insufficient sender balance"
  let s := payIn s0 caller value
  req (0 < qty) "Marketplace: qty=0"
  let e := s.events eventId
  req (e.organizer ≠ 0) "Marketplace: invalid event"
  req (e.cancelled = false) "Marketplace: event cancelled"
  req (e.saleStart ≤ s.time ∧ s.time ≤ e.saleEnd) "Marketplace: sale closed"
  req (e.ticketContract = s.nftAddr) "Marketplace: wrong ticket contract"
  let (identityHash, maxTickets) ← requireKycEligible s caller
  let already := s.purchasedByIdentity eventId identityHash
  req (already + qty < 2 ^ 32) "arithmetic overflow"
  req (already + qty ≤ maxTickets) "Marketplace: exceeds per-person limit"
  req (e.basePriceWei * qty < 2 ^ 256) "arithmetic overflow"
  let required := e.basePriceWei * qty
  req (required ≤ value) "Marketplace: insufficient payment"
  let s ← mintLoop caller eventId qty s
  let s := { s with purchasedByIdentity := upd2 s.purchasedByIdentity eventId identityHash (already + qty) }
  let s ← if required < value then
            sendValue s caller (value - required) "Marketplace: refund failed"
          else pure s
  let s ← sendValue s e.organizer required "Marketplace: payout failed"
  return s

/-- `Marketplace.listTicket`. The first `ERC721NonexistentToken` condition is
the `_requireOwned` revert inside `tickets.ownerOf`. -/
def listTicket (s : Chain) (caller : Addr) (tokenId priceWei : Nat) : Except Err Chain := do
  req (0 < priceWei) "Marketplace: price=0"
  req ((s.listings tokenId).active = false) "Marketplace: already listed"
  req (s.ownerOf tokenId ≠ 0) "ERC721NonexistentToken"
  req (s.ownerOf tokenId = caller) "Marketplace: not owner"
  req (s.statusOf tokenId = TicketStatus.VALID) "Marketplace: ticket not valid"
  let eventId := s.eventIdOf tokenId
  let e := s.events eventId
  req (e.organizer ≠ 0) "Marketplace: invalid event"
  req (e.cancelled = false) "Marketplace: event cancelled"
  req (s.time < e.eventStart) "Marketplace: event already started"
  let cfg := s.eventConfig eventId
  req (cfg.resaleEnabled = true) "Marketplace: resale disabled"
  if cfg.maxResales ≠ 0 then
    req (s.resaleCount tokenId < cfg.maxResales) "Marketplace: resale limit reached"
  req (e.basePriceWei * cfg.resaleCapBps < 2 ^ 256) "arithmetic overflow"
  req (priceWei ≤ e.basePriceWei * cfg.resaleCapBps / 10000) "Marketplace: price exceeds cap"
  req (s.tokenApproval tokenId = s.mkAddr ∨ s.operatorApproval caller s.mkAddr = true)
    "Marketplace: approve marketplace first"
  let s ← transferFrom s s.mkAddr caller s.mkAddr tokenId
  return { s with listings := upd s.listings tokenId ⟨caller, priceWei, true⟩ }

/-- `Marketplace.cancelListing`. -/
def cancelListing (s : Chain) (caller : Addr) (tokenId : Nat) : Except Err Chain := do
  let L := s.listings tokenId
  req (L.active = true) "Marketplace: not listed"
  req (L.seller = caller) "Marketplace: not seller"
  let s := { s with listings := upd s.listings tokenId { L with active := false } }
  let s ← transferFrom s s.mkAddr s.mkAddr caller tokenId
  return s

/-- The royalty computation of `buyResale`
(`royaltyWei = 0` when `cfg.royaltyBps == 0`, else
`L.priceWei * royaltyBps / 10000` in integer arithmetic). -/
def royaltyOf (priceWei royaltyBps : Nat) : Nat :=
  if royaltyBps = 0 then 0 else priceWei * royaltyBps / 10000

/-- One observable effect of a `buyResale` call, in the order the source
performs them. -/
inductive Effect where
  | deactivate (tokenId : Nat)
  | split (royaltyWei sellerWei : Nat)
  | paySeller (seller amt : Nat)
  | payOrganizer (organizer amt : Nat)
  | refundBuyer (buyer amt : Nat)
  | bumpResaleCount (tokenId : Nat)
  | ticketOut (tokenId : Nat) (toBuyer : Addr)
  deriving Repr, DecidableEq

/-- `Marketplace.buyResale`, additionally returning the list of its effects in
execution order. The `2 ^ 256` condition models checked `uint256`
multiplication, the underflow condition the checked `L.priceWei - royaltyWei`,
and the `2 ^ 8` condition the checked `uint8` increment of `resaleCount`. -/
def buyResale (s0 : Chain) (caller : Addr) (tokenId value : Nat) :
    Except Err (Chain × List Effect) := do
  req (value ≤ s0.balances caller) "insufficient sender balance"
  let s := payIn s0 caller value
  let L := s.listings tokenId
  req (L.active = true) "Marketplace: not listed"
  let eventId := s.eventIdOf tokenId
  let e := s.events eventId
  req (e.organizer ≠ 0) "Marketplace: invalid event"
  req (e.cancelled = false) "Marketplace: event cancelled"
  req (s.time < e.eventStart) "Marketplace: event already started"
  let _ ← requireKycEligible s caller
  req (L.priceWei ≤ value) "Marketplace: insufficient payment"
  -- (1) mark the listing inactive first
  let s := { s with listings := upd s.listings tokenId { L with active := false } }
  let tr := [Effect.deactivate tokenId]
  let cfg := s.eventConfig eventId
  -- (2) integer split of the price
  req (cfg.royaltyBps = 0 ∨ L.priceWei * cfg.royaltyBps < 2 ^ 256) "arithmetic overflow"
  let royaltyWei := royaltyOf L.priceWei cfg.royaltyBps
  req (royaltyWei ≤ L.priceWei) "arithmetic underflow"
  let sellerWei := L.priceWei - royaltyWei
  let tr := tr ++ [Effect.split royaltyWei sellerWei]
  -- (3) pay seller
  let s ← sendValue s L.seller sellerWei "Marketplace: seller payout failed"
  let tr := tr ++ [Effect.paySeller L.seller sellerWei]
  -- (4) pay royalty for the organizer when nonzero
  let s ← if royaltyWei ≠ 0 then
            sendValue s e.organizer royaltyWei "Marketplace: royalty payout failed"
          else pure s
  let tr := tr ++ (if royaltyWei ≠ 0 then [Effect.payOrganizer e.organizer royaltyWei] else [])
  -- (5) refund excess payment
  let s ← if L.priceWei < value then
            sendValue s caller (value - L.priceWei) "Marketplace: refund failed"
          else pure s
  let tr := tr ++ (if L.priceWei < value then [Effect.refundBuyer caller (value - L.priceWei)] else [])
  -- (6) increment the resale count
  req (s.resaleCount tokenId + 1 < 2 ^ 8) "arithmetic overflow"
  let s := { s with resaleCount := upd s.resaleCount tokenId (s.resaleCount tokenId + 1) }
  let tr := tr ++ [Effect.bumpResaleCount tokenId]
  -- (7) transfer the ticket from escrow over to the buyer
  let s ← transferFrom s s.mkAddr s.mkAddr caller tokenId
  return (s, tr ++ [Effect.ticketOut tokenId caller])

/-! ## The system step relation -/

/-- One external call into the system (or the advance of the block clock). -/
inductive Act where
  | updateIdentity (caller wallet identityHash maxTickets : Nat) (blocked : Bool) (expiry : Nat)
  | setOracle (caller newOracle : Nat)
  | createEvent (caller ticketContract saleStart saleEnd eventStart basePriceWei : Nat)
  | setCancelled (caller eventId : Nat) (flag : Bool)
  | setTicketContract (caller eventId ticketContract : Nat)
  | grantRole (caller : Nat) (r : Role) (acct : Nat)
  | setMarketplace (caller newMarketplace : Nat)
  | mintTo (caller dst eventId : Nat)
  | useTicket (caller tokenId : Nat)
  | setStatus (caller tokenId : Nat) (newStatus : TicketStatus)
  | approve (caller dst tokenId : Nat)
  | setApprovalForAll (caller op : Nat) (approved : Bool)
  | transferFrom (caller frm dst tokenId : Nat)
  | setEventConfig (caller eventId : Nat) (resaleEnabled : Bool)
      (resaleCapBps maxResales royaltyBps : Nat)
  | buyPrimary (caller eventId qty value : Nat)
  | listTicket (caller tokenId priceWei : Nat)
  | cancelListing (caller tokenId : Nat)
  | buyResale (caller tokenId value : Nat)
  | tick (dt : Nat)
  deriving Repr, DecidableEq

/-- Dispatch an external call onto the contract function it names. -/
def exec : Act → Chain → Except Err Chain
  | .updateIdentity c w h m b ex, s => updateIdentity s c w h m b ex
  | .setOracle c n, s => setOracle s c n
  | .createEvent c tc ss se es bp, s => createEvent s c tc ss se es bp
  | .setCancelled c eid f, s => setCancelled s c eid f
  | .setTicketContract c eid tc, s => setTicketContract s c eid tc
  | .grantRole c r a, s => grantRole s c r a
  | .setMarketplace c n, s => setMarketplace s c n
  | .mintTo c dst eid, s => mintTo s c dst eid
  | .useTicket c tok, s => useTicket s c tok
  | .setStatus c tok st, s => setStatus s c tok st
  | .approve c dst tok, s => approve s c dst tok
  | .setApprovalForAll c op ap, s => setApprovalForAll s c op ap
  | .transferFrom c f t tok, s => transferFrom s c f t tok
  | .setEventConfig c eid en cap mr roy, s => setEventConfig s c eid en cap mr roy
  | .buyPrimary c eid q v, s => buyPrimary s c eid q v
  | .listTicket c tok p, s => listTicket s c tok p
  | .cancelListing c tok, s => cancelListing s c tok
  | .buyResale c tok v, s => (buyResale s c tok v).map Prod.fst
  | .tick dt, s => .ok { s with time := s.time + dt }

/-- The external caller of an act (`0` for the clock). -/
def Act.caller : Act → Nat
  | .updateIdentity c _ _ _ _ _ => c
  | .setOracle c _ => c
  | .createEvent c _ _ _ _ _ => c
  | .setCancelled c _ _ => c
  | .setTicketContract c _ _ => c
  | .grantRole c _ _ => c
  | .setMarketplace c _ => c
  | .mintTo c _ _ => c
  | .useTicket c _ => c
  | .setStatus c _ _ => c
  | .approve c _ _ => c
  | .setApprovalForAll c _ _ => c
  | .transferFrom c _ _ _ => c
  | .setEventConfig c _ _ _ _ _ => c
  | .buyPrimary c _ _ _ => c
  | .listTicket c _ _ => c
  | .cancelListing c _ => c
  | .buyResale c _ _ => c
  | .tick _ => 0

/-- External calls come from ordinary accounts: never the zero address and
never one of the two contract addresses whose outgoing calls are already part
of the modelled operations. -/
def ActCallerOk (s : Chain) : Act → Prop
  | .tick _ => True
  | a => a.caller ≠ 0 ∧ a.caller ≠ s.mkAddr ∧ a.caller ≠ s.nftAddr

/-- One atomic transaction of the system: the call is made by a legitimate
external caller and commits. -/
def Step (a : Act) (s s' : Chain) : Prop := ActCallerOk s a ∧ exec a s = .ok s'

/-- Transaction semantics including reverts: a failed call leaves the state
unchanged. -/
def run (a : Act) (s : Chain) : Chain :=
  match exec a s with
  | .ok s' => s'
  | .error _ => s

/-- Apply an act, keeping the old state when the call reverts (used when building
concrete reachable states). -/
def applyAct (a : Act) (s : Chain) : Chain := run a s

/-- Deployment parameters of the four contracts plus the initial environment. -/
structure DeployParams where
  admin : Addr
  oracle0 : Addr
  oracleOwner : Addr
  registryOwner : Addr
  mkOwner : Addr
  mkAddr : Addr
  nftAddr : Addr
  balances0 : Nat → Nat
  accepts0 : Nat → Bool

def defaultIdentity : OracleIdentity := ⟨0, 0, false, 0⟩
def defaultEvent : EventInfo := ⟨0, 0, 0, 0, 0, 0, false⟩
def defaultListing : Listing := ⟨0, 0, false⟩
def defaultConfig : EventConfig := ⟨false, 0, 0, 0⟩

/-- The state right after the deployment scripts ran the four constructors:
counters start at 1, all mappings hold their zero values, `TicketNFT.marketplace`
is unset, and the deployer-supplied roles are in place. -/
def initChain (p : DeployParams) : Chain where
  oracleOwner := p.oracleOwner
  oracle := p.oracle0
  identities := fun _ => defaultIdentity
  registryOwner := p.registryOwner
  nextEventId := 1
  events := fun _ => defaultEvent
  nftAdmin := fun a => a == p.admin
  minter := fun _ => false
  checkin := fun _ => false
  nextTokenId := 1
  marketplace := 0
  ownerOf := fun _ => 0
  tokenApproval := fun _ => 0
  operatorApproval := fun _ _ => false
  eventIdOf := fun _ => 0
  statusOf := fun _ => TicketStatus.VALID
  mkOwner := p.mkOwner
  purchasedByIdentity := fun _ _ => 0
  listings := fun _ => defaultListing
  resaleCount := fun _ => 0
  eventConfig := fun _ => defaultConfig
  mkAddr := p.mkAddr
  nftAddr := p.nftAddr
  balances := p.balances0
  accepts := p.accepts0
  time := 0

/-- Constructor preconditions of the four contracts, and the contract
addresses being distinct nonzero addresses. -/
def ParamsOk (p : DeployParams) : Prop :=
  p.admin ≠ 0 ∧ p.oracle0 ≠ 0 ∧ p.mkAddr ≠ 0 ∧ p.nftAddr ≠ 0 ∧ p.mkAddr ≠ p.nftAddr ∧
  p.admin ≠ p.mkAddr ∧ p.admin ≠ p.nftAddr

/-- A step whose act moreover satisfies the trace restriction `P` at its
pre-state. -/
def StepP (P : Chain → Act → Prop) (s s' : Chain) : Prop := ∃ a, Step a s s' ∧ P s a

/-- States reachable from `s0` by restricted steps. -/
def ReachP (P : Chain → Act → Prop) (s0 s : Chain) : Prop :=
  Relation.ReflTransGen (StepP P) s0 s

/-- States reachable from some legitimate deployment by restricted steps. -/
def ReachableP (P : Chain → Act → Prop) (s : Chain) : Prop :=
  ∃ p : DeployParams, ParamsOk p ∧ ReachP P (initChain p) s

/-- States reachable from some legitimate deployment. -/
def Reachable (s : Chain) : Prop := ReachableP (fun _ _ => True) s

/-! ## Inversion lemmas for the operation bodies -/

theorem req_bind_ok {p : Prop} [Decidable p] {e : Err} {α : Type} {k : Unit → Except Err α}
    {x : α} : (req p e >>= k) = .ok x ↔ p ∧ k () = .ok x := by
  by_cases h : p <;> simp [req, h, Except.instMonad, Except.bind]

theorem pure_ok {α : Type} {v x : α} : (pure v : Except Err α) = .ok x ↔ v = x := by
  constructor
  · intro h; cases h; rfl
  · intro h; cases h; rfl

theorem exbind_ok {α β : Type} {m : Except Err α} {k : α → Except Err β} {x : β} :
    (m >>= k) = .ok x ↔ ∃ a, m = .ok a ∧ k a = .ok x := by
  cases m <;> simp [Except.instMonad, Except.bind]

theorem updateIdentity_ok {s s' : Chain} {c w h m : Nat} {b : Bool} {ex : Nat} :
    updateIdentity s c w h m b ex = .ok s' ↔
      c = s.oracle ∧ w ≠ 0 ∧ h ≠ 0 ∧
      s' = { s with identities :=
        fun a => if a = w then ⟨h, m, b, ex⟩ else s.identities a } := by
  simp only [updateIdentity, req_bind_ok, pure_ok]
  constructor
  · rintro ⟨h1, h2, h3, h4⟩; exact ⟨h1, h2, h3, h4.symm⟩
  · rintro ⟨h1, h2, h3, h4⟩; exact ⟨h1, h2, h3, h4.symm⟩

theorem sendValue_ok {s s' : Chain} {dst amt : Nat} {emsg : Err} :
    sendValue s dst amt emsg = .ok s' ↔
      s.accepts dst = true ∧ amt ≤ s.balances s.mkAddr ∧
      s' = { s with balances := credit (debit s.balances s.mkAddr amt) dst amt } := by
  simp only [sendValue, req_bind_ok, pure_ok]
  constructor
  · rintro ⟨⟨h1, h2⟩, h3⟩; exact ⟨h1, h2, h3.symm⟩
  · rintro ⟨h1, h2, h3⟩; exact ⟨⟨h1, h2⟩, h3.symm⟩

theorem setOracle_ok {s s' : Chain} {c n : Nat} :
    setOracle s c n = .ok s' ↔
      c = s.oracleOwner ∧ n ≠ 0 ∧ s' = { s with oracle := n } := by
  simp only [setOracle, req_bind_ok, pure_ok]
  constructor
  · rintro ⟨h1, h2, h3⟩; exact ⟨h1, h2, h3.symm⟩
  · rintro ⟨h1, h2, h3⟩; exact ⟨h1, h2, h3.symm⟩

theorem createEvent_ok {s s' : Chain} {c tc ss se es bp : Nat} :
    createEvent s c tc ss se es bp = .ok s' ↔
      tc ≠ 0 ∧ ss < se ∧ se ≤ es ∧ 0 < bp ∧
      s' = { s with nextEventId := s.nextEventId + 1,
                    events := upd s.events s.nextEventId ⟨c, tc, ss, se, es, bp, false⟩ } := by
  simp only [createEvent, req_bind_ok, pure_ok]
  constructor
  · rintro ⟨h1, h2, h3, h4, h5⟩; exact ⟨h1, h2, h3, h4, h5.symm⟩
  · rintro ⟨h1, h2, h3, h4, h5⟩; exact ⟨h1, h2, h3, h4, h5.symm⟩

theorem setCancelled_ok {s s' : Chain} {c eid : Nat} {f : Bool} :
    setCancelled s c eid f = .ok s' ↔
      (s.events eid).organizer ≠ 0 ∧
      (c = (s.events eid).organizer ∨ c = s.registryOwner) ∧
      s' = { s with events := upd s.events eid { s.events eid with cancelled := f } } := by
  simp only [setCancelled, req_bind_ok, pure_ok]
  constructor
  · rintro ⟨h1, h2, h3⟩; exact ⟨h1, h2, h3.symm⟩
  · rintro ⟨h1, h2, h3⟩; exact ⟨h1, h2, h3.symm⟩

theorem setTicketContract_ok {s s' : Chain} {c eid tc : Nat} :
    setTicketContract s c eid tc = .ok s' ↔
      c = s.registryOwner ∧ tc ≠ 0 ∧ (s.events eid).organizer ≠ 0 ∧
      s' = { s with events := upd s.events eid { s.events eid with ticketContract := tc } } := by
  simp only [setTicketContract, req_bind_ok, pure_ok]
  constructor
  · rintro ⟨h1, h2, h3, h4⟩; exact ⟨h1, h2, h3, h4.symm⟩
  · rintro ⟨h1, h2, h3, h4⟩; exact ⟨h1, h2, h3, h4.symm⟩

theorem grantRole_ok {s s' : Chain} {c : Addr} {r : Role} {a : Addr} :
    grantRole s c r a = .ok s' ↔
      s.nftAdmin c = true ∧
      s' = (match r with
            | .admin => { s with nftAdmin := upd s.nftAdmin a true }
            | .minterRole => { s with minter := upd s.minter a true }
            | .checkinRole => { s with checkin := upd s.checkin a true }) := by
  simp only [grantRole, req_bind_ok, pure_ok]
  constructor
  · rintro ⟨h1, h2⟩; exact ⟨h1, h2.symm⟩
  · rintro ⟨h1, h2⟩; exact ⟨h1, h2.symm⟩

theorem setMarketplace_ok {s s' : Chain} {c n : Nat} :
    setMarketplace s c n = .ok s' ↔
      s.nftAdmin c = true ∧ n ≠ 0 ∧ s' = { s with marketplace := n } := by
  simp only [setMarketplace, req_bind_ok, pure_ok]
  constructor
  · rintro ⟨h1, h2, h3⟩; exact ⟨h1, h2, h3.symm⟩
  · rintro ⟨h1, h2, h3⟩; exact ⟨h1, h2, h3.symm⟩

theorem approve_ok {s s' : Chain} {c dst : Addr} {tok : Nat} :
    approve s c dst tok = .ok s' ↔
      s.ownerOf tok ≠ 0 ∧
      (s.ownerOf tok = c ∨ s.operatorApproval (s.ownerOf tok) c = true) ∧
      s' = { s with tokenApproval := upd s.tokenApproval tok dst } := by
  simp only [approve, req_bind_ok, pure_ok]
  constructor
  · rintro ⟨h1, h2, h3⟩; exact ⟨h1, h2, h3.symm⟩
  · rintro ⟨h1, h2, h3⟩; exact ⟨h1, h2, h3.symm⟩

theorem setApprovalForAll_ok {s s' : Chain} {c op : Addr} {ap : Bool} :
    setApprovalForAll s c op ap = .ok s' ↔
      op ≠ 0 ∧
      s' = { s with operatorApproval :=
        fun a b => if a = c ∧ b = op then ap else s.operatorApproval a b } := by
  simp only [setApprovalForAll, req_bind_ok, pure_ok]
  constructor
  · rintro ⟨h1, h2⟩; exact ⟨h1, h2.symm⟩
  · rintro ⟨h1, h2⟩; exact ⟨h1, h2.symm⟩

theorem useTicket_ok {s s' : Chain} {c : Addr} {tok : Nat} :
    useTicket s c tok = .ok s' ↔
      s.checkin c = true ∧ s.ownerOf tok ≠ 0 ∧ s.statusOf tok = TicketStatus.VALID ∧
      s' = { s with statusOf := upd s.statusOf tok TicketStatus.USED } := by
  simp only [useTicket, req_bind_ok, pure_ok]
  constructor
  · rintro ⟨h1, h2, h3, h4⟩; exact ⟨h1, h2, h3, h4.symm⟩
  · rintro ⟨h1, h2, h3, h4⟩; exact ⟨h1, h2, h3, h4.symm⟩

theorem setStatus_ok {s s' : Chain} {c : Addr} {tok : Nat} {st : TicketStatus} :
    setStatus s c tok st = .ok s' ↔
      s.nftAdmin c = true ∧ s.ownerOf tok ≠ 0 ∧
      s' = { s with statusOf := upd s.statusOf tok st } := by
  simp only [setStatus, req_bind_ok, pure_ok]
  constructor
  · rintro ⟨h1, h2, h3⟩; exact ⟨h1, h2, h3.symm⟩
  · rintro ⟨h1, h2, h3⟩; exact ⟨h1, h2, h3.symm⟩

theorem pureU_bind {α : Type} {k : Unit → Except Err α} :
    ((pure () : Except Err Unit) >>= k) = k () := rfl

theorem requireKycEligible_ok {s : Chain} {b : Addr} {r : Nat × Nat} :
    requireKycEligible s b = .ok r ↔
      (s.identities b).identityHash ≠ 0 ∧ (s.identities b).blocked = false ∧
      ((s.identities b).expiry ≠ 0 → s.time ≤ (s.identities b).expiry) ∧
      r = ((s.identities b).identityHash, (s.identities b).maxTickets) := by
  unfold requireKycEligible
  by_cases hex : (s.identities b).expiry = 0
  · simp only [hex, ne_eq, not_true_eq_false, if_false, ite_false, req_bind_ok, pureU_bind,
      pure_ok]
    constructor
    · rintro ⟨h1, h2, h3⟩; exact ⟨h1, h2, fun hk => hk.elim, h3.symm⟩
    · rintro ⟨h1, h2, _, h4⟩; exact ⟨h1, h2, h4.symm⟩
  · simp only [hex, ne_eq, not_false_eq_true, if_true, ite_true, req_bind_ok, pureU_bind,
      pure_ok]
    constructor
    · rintro ⟨h1, h2, h3, h4⟩; exact ⟨h1, h2, fun _ => h3, h4.symm⟩
    · rintro ⟨h1, h2, h3, h4⟩; exact ⟨h1, h2, h3 trivial, h4.symm⟩

theorem setEventConfig_ok {s s' : Chain} {c eid : Nat} {en : Bool} {cap mr roy : Nat} :
    setEventConfig s c eid en cap mr roy = .ok s' ↔
      (s.events eid).organizer ≠ 0 ∧
      (c = (s.events eid).organizer ∨ c = s.mkOwner) ∧
      10000 ≤ cap ∧ cap ≤ 20000 ∧ roy ≤ 2000 ∧
      s' = { s with eventConfig := upd s.eventConfig eid ⟨en, cap, mr, roy⟩ } := by
  simp only [setEventConfig, req_bind_ok, pure_ok]
  constructor
  · rintro ⟨h1, h2, h3, h4, h5, h6⟩; exact ⟨h1, h2, h3, h4, h5, h6.symm⟩
  · rintro ⟨h1, h2, h3, h4, h5, h6⟩; exact ⟨h1, h2, h3, h4, h5, h6.symm⟩

theorem map_req_ok {α : Type} {p : Prop} [Decidable p] {e : Err} {g : Unit → α} {x : α} :
    (g <$> req p e) = .ok x ↔ p ∧ g () = x := by
  by_cases h : p <;> simp [req, h, Except.instMonad, Except.map]

theorem erc721Update_ok {s t : Chain} {ms dst : Addr} {tok auth : Nat} {f : Addr} :
    erc721Update s ms dst tok auth = .ok (t, f) ↔
      (auth ≠ 0 → (s.ownerOf tok = auth ∨ s.operatorApproval (s.ownerOf tok) auth = true ∨
        s.tokenApproval tok = auth)) ∧
      (s.ownerOf tok ≠ 0 ∧ dst ≠ 0 → s.marketplace ≠ 0 ∧ ms = s.marketplace ∧
        s.statusOf tok = TicketStatus.VALID) ∧
      ({ s with
          tokenApproval := (if s.ownerOf tok ≠ 0 then upd s.tokenApproval tok 0 else s.tokenApproval),
          ownerOf := upd s.ownerOf tok dst } = t) ∧
      s.ownerOf tok = f := by
  unfold erc721Update
  by_cases h1 : auth = 0 <;> by_cases h2 : s.ownerOf tok = 0 <;> by_cases h3 : dst = 0 <;>
    simp [h1, h2, h3, req_bind_ok, pureU_bind, pure_ok, map_req_ok, Prod.ext_iff] <;> tauto

theorem req_ok {p : Prop} [Decidable p] {e : Err} {u : Unit} : req p e = .ok u ↔ p := by
  by_cases h : p <;> simp [req, h]

theorem transferFrom_ok {s s' : Chain} {c frm dst : Addr} {tok : Nat} :
    transferFrom s c frm dst tok = .ok s' ↔
      dst ≠ 0 ∧ s.ownerOf tok = frm ∧
      (c ≠ 0 → (s.ownerOf tok = c ∨ s.operatorApproval (s.ownerOf tok) c = true ∨
        s.tokenApproval tok = c)) ∧
      (s.ownerOf tok ≠ 0 → s.marketplace ≠ 0 ∧ c = s.marketplace ∧
        s.statusOf tok = TicketStatus.VALID) ∧
      s' = { s with
             tokenApproval := (if s.ownerOf tok ≠ 0 then upd s.tokenApproval tok 0 else s.tokenApproval),
             ownerOf := upd s.ownerOf tok dst } := by
  simp only [transferFrom, req_bind_ok, pure_ok]
  simp only [exbind_ok, Prod.exists, erc721Update_ok, req_bind_ok, req_ok, pure_ok,
    exists_const]
  constructor
  · rintro ⟨hd, a, b, ⟨hauth, hover, ha, hb⟩, hbf, has⟩
    exact ⟨hd, hb.trans hbf, hauth, fun h0 => hover ⟨h0, hd⟩, (ha.trans has).symm⟩
  · rintro ⟨hd, hfrm, hauth, hover, hs⟩
    exact ⟨hd, _, _, ⟨hauth, fun hh => hover hh.1, rfl, rfl⟩, hfrm, hs.symm⟩

theorem erc721Update_mint {s : Chain} {ms dst : Addr} {tok : Nat} (h : s.ownerOf tok = 0) :
    erc721Update s ms dst tok 0 = .ok ({ s with ownerOf := upd s.ownerOf tok dst }, 0) := by
  simp [erc721Update, h, req_bind_ok, pureU_bind, pure_ok, map_req_ok]

theorem mintTo_ok {s s' : Chain} {c dst : Addr} {eid : Nat} :
    mintTo s c dst eid = .ok s' ↔
      s.minter c = true ∧ dst ≠ 0 ∧ s.ownerOf s.nextTokenId = 0 ∧
      s' = { s with
             nextTokenId := s.nextTokenId + 1,
             ownerOf := upd s.ownerOf s.nextTokenId dst,
             eventIdOf := upd s.eventIdOf s.nextTokenId eid,
             statusOf := upd s.statusOf s.nextTokenId TicketStatus.VALID } := by
  simp only [mintTo, req_bind_ok, pure_ok]
  simp only [exbind_ok, Prod.exists, erc721Update_ok, req_bind_ok, req_ok, pure_ok,
    exists_const]
  constructor
  · rintro ⟨h1, h2, h3, a, b, ⟨hauth, hover, ha, hb⟩, hs⟩
    subst ha
    refine ⟨h1, h2, h3, ?_⟩
    rw [← hs]
    simp [h3]
  · rintro ⟨h1, h2, h3, hs⟩
    subst hs
    refine ⟨h1, h2, h3, _, _, ⟨fun h => absurd rfl h, fun hh => absurd h3 hh.1, rfl, rfl⟩, ?_⟩
    simp [h3]

/-- The fields of the state a minting step can never touch, together with the
guarantee that tickets that already have an owner are left alone. -/
def MintFrame (s s' : Chain) : Prop :=
  s'.identities = s.identities ∧
  s'.purchasedByIdentity = s.purchasedByIdentity ∧
  s'.listings = s.listings ∧
  s'.events = s.events ∧
  s'.eventConfig = s.eventConfig ∧
  s'.resaleCount = s.resaleCount ∧
  s'.nextEventId = s.nextEventId ∧
  s'.mkAddr = s.mkAddr ∧
  s'.nftAddr = s.nftAddr ∧
  s'.marketplace = s.marketplace ∧
  s'.tokenApproval = s.tokenApproval ∧
  s'.operatorApproval = s.operatorApproval ∧
  s'.balances = s.balances ∧
  s'.time = s.time ∧
  (∀ tok, s.ownerOf tok ≠ 0 →
    s'.ownerOf tok = s.ownerOf tok ∧ s'.statusOf tok = s.statusOf tok ∧
    s'.eventIdOf tok = s.eventIdOf tok)

theorem mintFrame_refl {s : Chain} : MintFrame s s := by
  refine ⟨rfl, rfl, rfl, rfl, rfl, rfl, rfl, rfl, rfl, rfl, rfl, rfl, rfl, rfl, ?_⟩
  exact fun tok _ => ⟨rfl, rfl, rfl⟩

theorem mintFrame_trans {s s1 s2 : Chain} (h1 : MintFrame s s1) (h2 : MintFrame s1 s2) :
    MintFrame s s2 := by
  obtain ⟨a1, b1, c1, d1, e1, f1, g1, i1, j1, k1, l1, m1, n1, o1, p1⟩ := h1
  obtain ⟨a2, b2, c2, d2, e2, f2, g2, i2, j2, k2, l2, m2, n2, o2, p2⟩ := h2
  refine ⟨a2.trans a1, b2.trans b1, c2.trans c1, d2.trans d1, e2.trans e1, f2.trans f1,
    g2.trans g1, i2.trans i1, j2.trans j1, k2.trans k1, l2.trans l1, m2.trans m1,
    n2.trans n1, o2.trans o1, ?_⟩
  intro tok htok
  obtain ⟨q1, r1, t1⟩ := p1 tok htok
  have htok1 : s1.ownerOf tok ≠ 0 := q1.symm ▸ htok
  obtain ⟨q2, r2, t2⟩ := p2 tok htok1
  exact ⟨q2.trans q1, r2.trans r1, t2.trans t1⟩

theorem mintTo_frame {s s' : Chain} {c dst : Addr} {eid : Nat}
    (h : mintTo s c dst eid = .ok s') : MintFrame s s' := by
  rw [mintTo_ok] at h
  obtain ⟨h1, h2, h3, h4⟩ := h
  subst h4
  refine ⟨rfl, rfl, rfl, rfl, rfl, rfl, rfl, rfl, rfl, rfl, rfl, rfl, rfl, rfl, ?_⟩
  intro tok htok
  have hne : tok ≠ s.nextTokenId := fun he => htok (he ▸ h3)
  simp [upd, hne]

theorem mintLoop_frame {b : Addr} {eid : Nat} : ∀ {n : Nat} {s s' : Chain},
    mintLoop b eid n s = .ok s' → MintFrame s s' := by
  intro n
  induction n with
  | zero =>
    intro s s' h
    simp only [mintLoop] at h
    cases h
    exact mintFrame_refl
  | succ m ih =>
    intro s s' h
    simp only [mintLoop] at h
    rw [exbind_ok] at h
    obtain ⟨s1, hs1, hrest⟩ := h
    exact mintFrame_trans (mintTo_frame hs1) (ih hrest)

theorem buyPrimary_ok_inv {s0 s' : Chain} {c : Addr} {eid qty v : Nat}
    (h : buyPrimary s0 c eid qty v = .ok s') :
    (s0.identities c).identityHash ≠ 0 ∧
    s0.purchasedByIdentity eid (s0.identities c).identityHash + qty ≤
      (s0.identities c).maxTickets ∧
    s'.identities = s0.identities ∧
    s'.purchasedByIdentity = upd2 s0.purchasedByIdentity eid (s0.identities c).identityHash
      (s0.purchasedByIdentity eid (s0.identities c).identityHash + qty) ∧
    s'.listings = s0.listings ∧ s'.events = s0.events ∧ s'.eventConfig = s0.eventConfig ∧
    s'.resaleCount = s0.resaleCount ∧ s'.nextEventId = s0.nextEventId ∧
    s'.mkAddr = s0.mkAddr ∧ s'.nftAddr = s0.nftAddr ∧ s'.marketplace = s0.marketplace ∧
    s'.tokenApproval = s0.tokenApproval ∧ s'.operatorApproval = s0.operatorApproval ∧
    s'.time = s0.time ∧
    (∀ tok, s0.ownerOf tok ≠ 0 → s'.ownerOf tok = s0.ownerOf tok ∧
      s'.statusOf tok = s0.statusOf tok ∧ s'.eventIdOf tok = s0.eventIdOf tok) := by
  simp only [buyPrimary, payIn, req_bind_ok, pure_ok] at h
  simp only [exbind_ok, Prod.exists, requireKycEligible_ok, req_bind_ok, req_ok, pure_ok,
    exists_const, Prod.mk.injEq] at h
  obtain ⟨hbal, hq, ho, hc, hw, htc, a, b, ⟨hkh, hkb, hke, ha, hb⟩, h32, hlim, h256, hpay,
    sm, hml, hrest⟩ := h
  subst ha
  subst hb
  obtain ⟨f1, f2, f3, f4, f5, f6, f7, f8, f9, f10, f11, f12, f13, f14, f15⟩ :=
    mintLoop_frame hml
  by_cases hr : (s0.events eid).basePriceWei * qty < v
  · rw [if_pos hr] at hrest
    simp only [exbind_ok, sendValue_ok, pure_ok] at hrest
    obtain ⟨y, ⟨hy1, hy2, hy3⟩, z, ⟨hz1, hz2, hz3⟩, hzs⟩ := hrest
    subst hy3
    subst hz3
    subst hzs
    exact ⟨hkh, hlim, f1,
      congrArg (fun m => upd2 m eid ((s0.identities c).identityHash)
        (s0.purchasedByIdentity eid ((s0.identities c).identityHash) + qty)) f2,
      f3, f4, f5, f6, f7, f8, f9, f10, f11, f12, f14, fun tok htok => f15 tok htok⟩
  · rw [if_neg hr] at hrest
    simp only [exbind_ok, sendValue_ok, pure_ok] at hrest
    obtain ⟨y, hy, z, ⟨hz1, hz2, hz3⟩, hzs⟩ := hrest
    subst hy
    subst hz3
    subst hzs
    exact ⟨hkh, hlim, f1,
      congrArg (fun m => upd2 m eid ((s0.identities c).identityHash)
        (s0.purchasedByIdentity eid ((s0.identities c).identityHash) + qty)) f2,
      f3, f4, f5, f6, f7, f8, f9, f10, f11, f12, f14, fun tok htok => f15 tok htok⟩

theorem listTicket_ok_inv {s s' : Chain} {c : Addr} {tok p : Nat}
    (h : listTicket s c tok p = .ok s') :
    0 < p ∧ (s.listings tok).active = false ∧ s.ownerOf tok = c ∧ c ≠ 0 ∧
    s.statusOf tok = TicketStatus.VALID ∧
    (s.events (s.eventIdOf tok)).organizer ≠ 0 ∧
    (s.events (s.eventIdOf tok)).cancelled = false ∧
    s.time < (s.events (s.eventIdOf tok)).eventStart ∧
    (s.eventConfig (s.eventIdOf tok)).resaleEnabled = true ∧
    p ≤ (s.events (s.eventIdOf tok)).basePriceWei *
      (s.eventConfig (s.eventIdOf tok)).resaleCapBps / 10000 ∧
    s.mkAddr ≠ 0 ∧ s.marketplace ≠ 0 ∧ s.mkAddr = s.marketplace ∧
    s' = { s with
           tokenApproval := upd s.tokenApproval tok 0,
           ownerOf := upd s.ownerOf tok s.mkAddr,
           listings := upd s.listings tok ⟨c, p, true⟩ } := by
  simp only [listTicket, req_bind_ok, pure_ok] at h
  by_cases hmr : (s.eventConfig (s.eventIdOf tok)).maxResales = 0 <;>
    simp only [hmr, ne_eq, not_true_eq_false, not_false_eq_true, if_true, if_false, ite_true,
      ite_false, pureU_bind, req_bind_ok] at h <;>
    simp only [exbind_ok, transferFrom_ok, req_bind_ok, req_ok, pure_ok, exists_const] at h
  · obtain ⟨hp, hact, hown0, hownc, hst, horg, hcanc, htime, hen, hcap256, hcap, happr,
      s1, ⟨hmk0, hfrm, hauth, hover, hs1⟩, hs'⟩ := h
    subst hs1
    obtain ⟨hm1, hm2, hm3⟩ := hover hown0
    refine ⟨hp, hact, hownc, hownc ▸ hown0, hst, horg, hcanc, htime, hen, hcap, hmk0, hm1,
      hm2, ?_⟩
    rw [← hs']
    simp [hown0]
  · obtain ⟨hp, hact, hown0, hownc, hst, horg, hcanc, htime, hen, hlim, hcap256, hcap, happr,
      s1, ⟨hmk0, hfrm, hauth, hover, hs1⟩, hs'⟩ := h
    subst hs1
    obtain ⟨hm1, hm2, hm3⟩ := hover hown0
    refine ⟨hp, hact, hownc, hownc ▸ hown0, hst, horg, hcanc, htime, hen, hcap, hmk0, hm1,
      hm2, ?_⟩
    rw [← hs']
    simp [hown0]

theorem cancelListing_ok_inv {s s' : Chain} {c : Addr} {tok : Nat}
    (h : cancelListing s c tok = .ok s') :
    (s.listings tok).active = true ∧ (s.listings tok).seller = c ∧ c ≠ 0 ∧
    s.ownerOf tok = s.mkAddr ∧
    (s.ownerOf tok ≠ 0 → s.marketplace ≠ 0 ∧ s.mkAddr = s.marketplace ∧
      s.statusOf tok = TicketStatus.VALID) ∧
    s' = { s with
           listings := upd s.listings tok { s.listings tok with active := false },
           tokenApproval := (if s.ownerOf tok ≠ 0 then upd s.tokenApproval tok 0 else s.tokenApproval),
           ownerOf := upd s.ownerOf tok c } := by
  simp only [cancelListing, req_bind_ok, pure_ok] at h
  simp only [exbind_ok, transferFrom_ok, req_bind_ok, req_ok, pure_ok, exists_const] at h
  obtain ⟨hact, hsell, s1, ⟨hc0, hfrm, hauth, hover, hs1⟩, hs'⟩ := h
  subst hs1
  exact ⟨hact, hsell, hc0, hfrm, hover, hs'.symm⟩

theorem buyResale_ok_inv {s s' : Chain} {c : Addr} {tok v : Nat} {tr : List Effect}
    (h : buyResale s c tok v = .ok (s', tr)) :
    (s.listings tok).active = true ∧ c ≠ 0 ∧ s.ownerOf tok = s.mkAddr ∧
    (s.events (s.eventIdOf tok)).organizer ≠ 0 ∧
    (s.events (s.eventIdOf tok)).cancelled = false ∧
    s.time < (s.events (s.eventIdOf tok)).eventStart ∧
    s.accepts (s.listings tok).seller = true ∧
    (royaltyOf (s.listings tok).priceWei (s.eventConfig (s.eventIdOf tok)).royaltyBps ≠ 0 →
      s.accepts (s.events (s.eventIdOf tok)).organizer = true) ∧
    ((s.listings tok).priceWei < v → s.accepts c = true) ∧
    tr = [Effect.deactivate tok,
          Effect.split
            (royaltyOf (s.listings tok).priceWei (s.eventConfig (s.eventIdOf tok)).royaltyBps)
            ((s.listings tok).priceWei -
              royaltyOf (s.listings tok).priceWei (s.eventConfig (s.eventIdOf tok)).royaltyBps),
          Effect.paySeller (s.listings tok).seller
            ((s.listings tok).priceWei -
              royaltyOf (s.listings tok).priceWei (s.eventConfig (s.eventIdOf tok)).royaltyBps)]
      ++ (if royaltyOf (s.listings tok).priceWei
            (s.eventConfig (s.eventIdOf tok)).royaltyBps ≠ 0 then
            [Effect.payOrganizer (s.events (s.eventIdOf tok)).organizer
              (royaltyOf (s.listings tok).priceWei
                (s.eventConfig (s.eventIdOf tok)).royaltyBps)]
          else [])
      ++ (if (s.listings tok).priceWei < v then
            [Effect.refundBuyer c (v - (s.listings tok).priceWei)]
          else [])
      ++ [Effect.bumpResaleCount tok, Effect.ticketOut tok c] ∧
    (s.ownerOf tok ≠ 0 → s.marketplace ≠ 0 ∧ s.mkAddr = s.marketplace ∧
      s.statusOf tok = TicketStatus.VALID) ∧
    (∃ bal, s' = { s with
      listings := upd s.listings tok { s.listings tok with active := false },
      resaleCount := upd s.resaleCount tok (s.resaleCount tok + 1),
      tokenApproval := (if s.ownerOf tok ≠ 0 then upd s.tokenApproval tok 0 else s.tokenApproval),
      ownerOf := upd s.ownerOf tok c,
      balances := bal }) := by
  simp only [buyResale, payIn, req_bind_ok, pure_ok] at h
  by_cases hroy : royaltyOf (s.listings tok).priceWei
      (s.eventConfig (s.eventIdOf tok)).royaltyBps = 0 <;>
  by_cases hrf : (s.listings tok).priceWei < v <;>
    simp only [hroy, hrf, ne_eq, not_true_eq_false, not_false_eq_true, if_true, if_false,
      ite_true, ite_false, pureU_bind, req_bind_ok] at h <;>
    simp only [exbind_ok, Prod.exists, requireKycEligible_ok, transferFrom_ok, sendValue_ok,
      req_bind_ok, req_ok, pure_ok, exists_const, Prod.mk.injEq] at h
  · obtain ⟨hbal, hact, horg, hcanc, htime, a, b, ⟨hk1, hk2, hk3, ha, hb⟩, hpay, hov, hund,
      y, ⟨hy1, hy2, hy3⟩, a1, hya1, z, ⟨hz1, hz2, hz3⟩, h8, s1,
      ⟨hc0, hfrm, hauth, hover, hs1⟩, hs', htr⟩ := h
    subst hy3
    subst hya1
    subst hz3
    subst hs1
    subst htr
    exact ⟨hact, hc0, hfrm, horg, hcanc, htime, hy1, fun hk => absurd hroy hk, fun _ => hz1,
      by simp [hroy, hrf], hover, _, hs'.symm⟩
  · obtain ⟨hbal, hact, horg, hcanc, htime, a, b, ⟨hk1, hk2, hk3, ha, hb⟩, hpay, hov, hund,
      y, ⟨hy1, hy2, hy3⟩, a1, hya1, a2, ha1a2, h8, s1,
      ⟨hc0, hfrm, hauth, hover, hs1⟩, hs', htr⟩ := h
    subst hy3
    subst hya1
    subst ha1a2
    subst hs1
    subst htr
    exact ⟨hact, hc0, hfrm, horg, hcanc, htime, hy1, fun hk => absurd hroy hk,
      fun hk => absurd hk hrf, by simp [hroy, hrf], hover, _, hs'.symm⟩
  · obtain ⟨hbal, hact, horg, hcanc, htime, a, b, ⟨hk1, hk2, hk3, ha, hb⟩, hpay, hov, hund,
      y, ⟨hy1, hy2, hy3⟩, z, ⟨hz1, hz2, hz3⟩, w, ⟨hw1, hw2, hw3⟩, h8, s1,
      ⟨hc0, hfrm, hauth, hover, hs1⟩, hs', htr⟩ := h
    subst hy3
    subst hz3
    subst hw3
    subst hs1
    subst htr
    exact ⟨hact, hc0, hfrm, horg, hcanc, htime, hy1, fun _ => hz1, fun _ => hw1,
      by simp [hroy, hrf], hover, _, hs'.symm⟩
  · obtain ⟨hbal, hact, horg, hcanc, htime, a, b, ⟨hk1, hk2, hk3, ha, hb⟩, hpay, hov, hund,
      y, ⟨hy1, hy2, hy3⟩, z, ⟨hz1, hz2, hz3⟩, a1, hza1, h8, s1,
      ⟨hc0, hfrm, hauth, hover, hs1⟩, hs', htr⟩ := h
    subst hy3
    subst hz3
    subst hza1
    subst hs1
    subst htr
    exact ⟨hact, hc0, hfrm, horg, hcanc, htime, hy1, fun _ => hz1, fun hk => absurd hk hrf,
      by simp [hroy, hrf], hover, _, hs'.symm⟩

/-! ## Error-side helpers and shared concrete states -/

theorem req_bind_pass {p : Prop} [Decidable p] (hp : p) {e : Err} {α : Type}
    {k : Unit → Except Err α} : (req p e >>= k) = k () := by
  simp [req, hp, Except.instMonad, Except.bind]

theorem req_bind_stop {p : Prop} [Decidable p] (hp : ¬ p) {e : Err} {α : Type}
    {k : Unit → Except Err α} : (req p e >>= k) = .error e := by
  simp [req, hp, Except.instMonad, Except.bind]

theorem run_of_error {a : Act} {s : Chain} {e : Err} (h : exec a s = .error e) :
    run a s = s := by
  simp [run, h]

theorem map_ok {α β : Type} {m : Except Err α} {g : α → β} {x : β} :
    (m.map g) = .ok x ↔ ∃ a, m = .ok a ∧ g a = x := by
  cases m <;> simp [Except.map]

/-- The integer royalty is never more than the price when the ratio is at most
100 percent. -/
theorem royaltyOf_le_price {p r : Nat} (hr : r ≤ 10000) : royaltyOf p r ≤ p := by
  unfold royaltyOf
  split
  · exact Nat.zero_le p
  · calc p * r / 10000 ≤ p * 10000 / 10000 :=
          Nat.div_le_div_right (Nat.mul_le_mul_left p hr)
      _ = p := Nat.mul_div_cancel p (by norm_num)

/-- With a ratio of at most 2000 bps the royalty is at most one fifth of the
price. -/
theorem royaltyOf_le_fifth {p r : Nat} (hr : r ≤ 2000) : royaltyOf p r ≤ p / 5 := by
  unfold royaltyOf
  split
  · exact Nat.zero_le _
  · calc p * r / 10000 ≤ p * 2000 / 10000 :=
          Nat.div_le_div_right (Nat.mul_le_mul_left p hr)
      _ = p / 5 := by
          have : (10000 : Nat) = 5 * 2000 := by norm_num
          rw [this, Nat.mul_div_mul_right _ _ (by norm_num : (0:Nat) < 2000)]

/-- Deployment used for all concrete traces below: admin 1, oracle account 2,
registry owner 3, marketplace owner 4, Marketplace contract at 100, TicketNFT
contract at 101, everyone funded and accepting payments. -/
def wParams : DeployParams := ⟨1, 2, 2, 3, 4, 100, 101, fun _ => 1000, fun _ => true⟩

def s0w : Chain := initChain wParams

theorem wParamsOk : ParamsOk wParams := by
  refine ⟨?_, ?_, ?_, ?_, ?_, ?_, ?_⟩ <;> decide

/-! ## Claim C9 -/

/-- C9: for every resale at integer price `p` under an event config whose
royaltyBps `r` was accepted by `setEventConfig` (so `r ≤ 2000`), the payout
split is exact integer arithmetic: `royalty = floor(p * r / 10000)`,
`sellerAmount = p - royalty`, the two parts add back up to exactly `p`, and
`royalty ≤ p / 5`. -/
theorem C9_royalty_split {s s' : Chain} {c eid : Nat} {en : Bool} {cap mr r : Nat}
    (h : setEventConfig s c eid en cap mr r = .ok s') :
    ∀ p : Nat,
      (p - royaltyOf p ((s'.eventConfig eid).royaltyBps)) +
        royaltyOf p ((s'.eventConfig eid).royaltyBps) = p ∧
      royaltyOf p ((s'.eventConfig eid).royaltyBps) ≤ p / 5 := by
  rw [setEventConfig_ok] at h
  obtain ⟨h1, h2, h3, h4, hroy, hs⟩ := h
  subst hs
  intro p
  have hbps : (upd s.eventConfig eid (⟨en, cap, mr, r⟩ : EventConfig) eid).royaltyBps = r := by
    simp [upd]
  simp only [hbps]
  constructor
  · exact Nat.sub_add_cancel (royaltyOf_le_price (le_trans hroy (by norm_num)))
  · exact royaltyOf_le_fifth hroy

def c9s : Chain := applyAct (Act.createEvent 5 101 0 10 10 100) s0w

def c9res : Chain := applyAct (Act.setEventConfig 5 1 true 10000 0 2000) c9s

/-- Witness for C9 at a concrete accepted config (`r = 2000`) and price 7. -/
theorem C9_witness :
    (7 - royaltyOf 7 ((c9res.eventConfig 1).royaltyBps)) +
      royaltyOf 7 ((c9res.eventConfig 1).royaltyBps) = 7 ∧
    royaltyOf 7 ((c9res.eventConfig 1).royaltyBps) ≤ 7 / 5 :=
  C9_royalty_split (show setEventConfig c9s 5 1 true 10000 0 2000 = .ok c9res from rfl) 7

/-! ## Claim C2 -/

/-- C2: a transfer between two non-zero accounts succeeds only when the call
into `TicketNFT` comes from the configured marketplace and the ticket status
is VALID (first conjunct); mint — transfer out of the zero address — is exempt
from both conditions (second conjunct), and so is burn — transfer into the
zero address (third conjunct). -/
theorem C2_transfer_restriction :
    (∀ (s t : Chain) (ms dst : Addr) (tok auth : Nat) (f : Addr),
      erc721Update s ms dst tok auth = .ok (t, f) → f ≠ 0 → dst ≠ 0 →
        s.marketplace ≠ 0 ∧ ms = s.marketplace ∧ s.statusOf tok = TicketStatus.VALID) ∧
    (∀ (s : Chain) (ms dst : Addr) (tok : Nat), s.ownerOf tok = 0 →
      erc721Update s ms dst tok 0 =
        .ok ({ s with ownerOf := upd s.ownerOf tok dst }, 0)) ∧
    (∀ (s : Chain) (ms : Addr) (tok : Nat), s.ownerOf tok ≠ 0 →
      erc721Update s ms 0 tok 0 =
        .ok ({ s with
                tokenApproval := upd s.tokenApproval tok 0,
                ownerOf := upd s.ownerOf tok 0 }, s.ownerOf tok)) := by
  refine ⟨?_, ?_, ?_⟩
  · intro s t ms dst tok auth f h hf hd
    rw [erc721Update_ok] at h
    obtain ⟨hauth, hover, ht, hfeq⟩ := h
    exact hover ⟨hfeq ▸ hf, hd⟩
  · intro s ms dst tok h
    exact erc721Update_mint h
  · intro s ms tok h
    simp [erc721Update, h, req_bind_ok, pureU_bind, pure_ok, map_req_ok]

def c2s : Chain :=
  { s0w with
    marketplace := 50
    ownerOf := upd (fun _ => 0) 1 7
    tokenApproval := upd (fun _ => 0) 1 50 }

/-- Witness for C2: a concrete successful marketplace transfer, a concrete
mint and a concrete burn. -/
theorem C2_witness :
    (c2s.marketplace ≠ 0 ∧ 50 = c2s.marketplace ∧ c2s.statusOf 1 = TicketStatus.VALID) ∧
    erc721Update c2s 9 8 2 0 = .ok ({ c2s with ownerOf := upd c2s.ownerOf 2 8 }, 0) ∧
    erc721Update c2s 9 0 1 0 =
      .ok ({ c2s with
              tokenApproval := upd c2s.tokenApproval 1 0,
              ownerOf := upd c2s.ownerOf 1 0 }, c2s.ownerOf 1) := by
  refine ⟨?_, ?_, ?_⟩
  · exact C2_transfer_restriction.1 c2s _ 50 8 1 50 7 (by rfl) (by decide) (by decide)
  · exact C2_transfer_restriction.2.1 c2s 9 8 2 (by rfl)
  · exact C2_transfer_restriction.2.2 c2s 9 1 (by decide)

/-! ## Claim C4 -/

/-- C4 (amended): `useTicket` fails on any ticket whose status is not VALID and
the state is unchanged (first conjunct), and no operation other than the admin
`setStatus` override ever changes the status of a minted (owned) ticket that
is already in a terminal (non-VALID) state (second conjunct). The admin
`setStatus` override itself is exempt: the source imposes no condition on the
old status, so it can leave a terminal state (see the counterexample). -/
theorem C4_terminal_states :
    (∀ (s : Chain) (c : Addr) (tok : Nat), s.statusOf tok ≠ TicketStatus.VALID →
      (∀ s', useTicket s c tok ≠ .ok s') ∧ run (Act.useTicket c tok) s = s) ∧
    (∀ (a : Act) (s s' : Chain) (tok : Nat), exec a s = .ok s' →
      (∀ c t st, a ≠ Act.setStatus c t st) → s.ownerOf tok ≠ 0 →
      s.statusOf tok ≠ TicketStatus.VALID → s'.statusOf tok = s.statusOf tok) := by
  constructor
  · intro s c tok hterm
    have hne : ∀ s', useTicket s c tok ≠ .ok s' := by
      intro s' hok
      rw [useTicket_ok] at hok
      exact hterm hok.2.2.1
    refine ⟨hne, ?_⟩
    cases he : useTicket s c tok with
    | ok s' => exact absurd he (hne s')
    | error e => exact run_of_error (show exec (Act.useTicket c tok) s = .error e from he)
  · intro a s s' tok hex hna hown hterm
    cases a with
    | updateIdentity c w h m b ex =>
      rw [exec, updateIdentity_ok] at hex
      obtain ⟨_, _, _, hs⟩ := hex
      subst hs; rfl
    | setOracle c n =>
      rw [exec, setOracle_ok] at hex
      obtain ⟨_, _, hs⟩ := hex
      subst hs; rfl
    | createEvent c tc ss se es bp =>
      rw [exec, createEvent_ok] at hex
      obtain ⟨_, _, _, _, hs⟩ := hex
      subst hs; rfl
    | setCancelled c eid f =>
      rw [exec, setCancelled_ok] at hex
      obtain ⟨_, _, hs⟩ := hex
      subst hs; rfl
    | setTicketContract c eid tc =>
      rw [exec, setTicketContract_ok] at hex
      obtain ⟨_, _, _, hs⟩ := hex
      subst hs; rfl
    | grantRole c r acct =>
      rw [exec, grantRole_ok] at hex
      obtain ⟨_, hs⟩ := hex
      cases r <;> (subst hs; rfl)
    | setMarketplace c n =>
      rw [exec, setMarketplace_ok] at hex
      obtain ⟨_, _, hs⟩ := hex
      subst hs; rfl
    | mintTo c dst eid =>
      rw [exec, mintTo_ok] at hex
      obtain ⟨_, _, h0, hs⟩ := hex
      subst hs
      have hne : tok ≠ s.nextTokenId := fun he => hown (he ▸ h0)
      simp [upd, hne]
    | useTicket c tok2 =>
      rw [exec, useTicket_ok] at hex
      obtain ⟨_, _, hv, hs⟩ := hex
      subst hs
      have hne : tok ≠ tok2 := fun he => hterm (he ▸ hv)
      simp [upd, hne]
    | setStatus c tok2 st =>
      exact absurd rfl (hna c tok2 st)
    | approve c dst tok2 =>
      rw [exec, approve_ok] at hex
      obtain ⟨_, _, hs⟩ := hex
      subst hs; rfl
    | setApprovalForAll c op ap =>
      rw [exec, setApprovalForAll_ok] at hex
      obtain ⟨_, hs⟩ := hex
      subst hs; rfl
    | transferFrom c frm dst tok2 =>
      rw [exec, transferFrom_ok] at hex
      obtain ⟨_, _, _, _, hs⟩ := hex
      subst hs; rfl
    | setEventConfig c eid en cap mr roy =>
      rw [exec, setEventConfig_ok] at hex
      obtain ⟨_, _, _, _, _, hs⟩ := hex
      subst hs; rfl
    | buyPrimary c eid q v =>
      rw [exec] at hex
      obtain ⟨_, _, _, _, _, _, _, _, _, _, _, _, _, _, _, hwn⟩ := buyPrimary_ok_inv hex
      exact (hwn tok hown).2.1
    | listTicket c tok2 p =>
      rw [exec] at hex
      obtain ⟨_, _, _, _, _, _, _, _, _, _, _, _, _, hs⟩ := listTicket_ok_inv hex
      subst hs; rfl
    | cancelListing c tok2 =>
      rw [exec] at hex
      obtain ⟨_, _, _, _, _, hs⟩ := cancelListing_ok_inv hex
      subst hs; rfl
    | buyResale c tok2 v =>
      rw [exec, map_ok] at hex
      obtain ⟨⟨sx, tr⟩, hp, hfst⟩ := hex
      have hs' : sx = s' := hfst
      subst hs'
      obtain ⟨_, _, _, _, _, _, _, _, _, _, _, bal, hs⟩ := buyResale_ok_inv hp
      subst hs; rfl
    | tick dt =>
      rw [exec] at hex
      cases hex; rfl

def c4s1 : Chain := applyAct (Act.grantRole 1 Role.minterRole 7) s0w
def c4s2 : Chain := applyAct (Act.mintTo 7 6 1) c4s1
def c4mid : Chain := applyAct (Act.setStatus 1 1 TicketStatus.USED) c4s2
def c4end : Chain := applyAct (Act.setStatus 1 1 TicketStatus.VALID) c4mid

theorem stepP_applyAct {P : Chain → Act → Prop} (a : Act) (s : Chain)
    (h1 : ActCallerOk s a) (h2 : ∃ v, exec a s = .ok v) (h3 : P s a) :
    StepP P s (applyAct a s) := by
  obtain ⟨v, hv⟩ := h2
  refine ⟨a, ⟨h1, ?_⟩, h3⟩
  simp [applyAct, run, hv]

/-- Counterexample to C4 as stated: on a reachable state whose ticket 1 is in
the terminal status USED, the admin `setStatus` override succeeds and moves it
back to VALID instead of failing. -/
theorem C4_counterexample :
    Reachable c4mid ∧ c4mid.statusOf 1 = TicketStatus.USED ∧
    Step (Act.setStatus 1 1 TicketStatus.VALID) c4mid c4end ∧
    c4end.statusOf 1 = TicketStatus.VALID := by
  refine ⟨⟨wParams, wParamsOk, ?_⟩, by rfl, ⟨⟨by decide, by decide, by decide⟩, by rfl⟩,
    by rfl⟩
  have h1 : StepP (fun _ _ => True) s0w c4s1 :=
    stepP_applyAct (Act.grantRole 1 Role.minterRole 7) s0w
      ⟨by decide, by decide, by decide⟩ ⟨_, rfl⟩ trivial
  have h2 : StepP (fun _ _ => True) c4s1 c4s2 :=
    stepP_applyAct (Act.mintTo 7 6 1) c4s1 ⟨by decide, by decide, by decide⟩ ⟨_, rfl⟩ trivial
  have h3 : StepP (fun _ _ => True) c4s2 c4mid :=
    stepP_applyAct (Act.setStatus 1 1 TicketStatus.USED) c4s2
      ⟨by decide, by decide, by decide⟩ ⟨_, rfl⟩ trivial
  exact Relation.ReflTransGen.tail (Relation.ReflTransGen.tail
    (Relation.ReflTransGen.tail Relation.ReflTransGen.refl h1) h2) h3

/-! ## Claim C8 -/

/-- Which operations can write the event store at all, and what they write:
everything else leaves `events` untouched. -/
theorem exec_events_cases {a : Act} {s s' : Chain} (h : exec a s = .ok s') :
    s'.events = s.events ∨
    (∃ c tc ss se es bp, a = Act.createEvent c tc ss se es bp ∧
      s'.events = upd s.events s.nextEventId ⟨c, tc, ss, se, es, bp, false⟩) ∨
    (∃ c eid f, a = Act.setCancelled c eid f ∧
      (c = (s.events eid).organizer ∨ c = s.registryOwner) ∧
      s'.events = upd s.events eid { s.events eid with cancelled := f }) ∨
    (∃ c eid tc, a = Act.setTicketContract c eid tc ∧ c = s.registryOwner ∧
      s'.events = upd s.events eid { s.events eid with ticketContract := tc }) := by
  cases a with
  | updateIdentity c w hh m b ex =>
    rw [exec, updateIdentity_ok] at h
    obtain ⟨_, _, _, hs⟩ := h
    subst hs; exact Or.inl rfl
  | setOracle c n =>
    rw [exec, setOracle_ok] at h
    obtain ⟨_, _, hs⟩ := h
    subst hs; exact Or.inl rfl
  | createEvent c tc ss se es bp =>
    rw [exec, createEvent_ok] at h
    obtain ⟨_, _, _, _, hs⟩ := h
    subst hs
    exact Or.inr (Or.inl ⟨c, tc, ss, se, es, bp, rfl, rfl⟩)
  | setCancelled c eid f =>
    rw [exec, setCancelled_ok] at h
    obtain ⟨_, hauth, hs⟩ := h
    subst hs
    exact Or.inr (Or.inr (Or.inl ⟨c, eid, f, rfl, hauth, rfl⟩))
  | setTicketContract c eid tc =>
    rw [exec, setTicketContract_ok] at h
    obtain ⟨hauth, _, _, hs⟩ := h
    subst hs
    exact Or.inr (Or.inr (Or.inr ⟨c, eid, tc, rfl, hauth, rfl⟩))
  | grantRole c r acct =>
    rw [exec, grantRole_ok] at h
    obtain ⟨_, hs⟩ := h
    cases r <;> (subst hs; exact Or.inl rfl)
  | setMarketplace c n =>
    rw [exec, setMarketplace_ok] at h
    obtain ⟨_, _, hs⟩ := h
    subst hs; exact Or.inl rfl
  | mintTo c dst eid =>
    rw [exec, mintTo_ok] at h
    obtain ⟨_, _, _, hs⟩ := h
    subst hs; exact Or.inl rfl
  | useTicket c tok =>
    rw [exec, useTicket_ok] at h
    obtain ⟨_, _, _, hs⟩ := h
    subst hs; exact Or.inl rfl
  | setStatus c tok st =>
    rw [exec, setStatus_ok] at h
    obtain ⟨_, _, hs⟩ := h
    subst hs; exact Or.inl rfl
  | approve c dst tok =>
    rw [exec, approve_ok] at h
    obtain ⟨_, _, hs⟩ := h
    subst hs; exact Or.inl rfl
  | setApprovalForAll c op ap =>
    rw [exec, setApprovalForAll_ok] at h
    obtain ⟨_, hs⟩ := h
    subst hs; exact Or.inl rfl
  | transferFrom c frm dst tok =>
    rw [exec, transferFrom_ok] at h
    obtain ⟨_, _, _, _, hs⟩ := h
    subst hs; exact Or.inl rfl
  | setEventConfig c eid en cap mr roy =>
    rw [exec, setEventConfig_ok] at h
    obtain ⟨_, _, _, _, _, hs⟩ := h
    subst hs; exact Or.inl rfl
  | buyPrimary c eid q v =>
    rw [exec] at h
    obtain ⟨_, _, _, _, _, hev, _⟩ := buyPrimary_ok_inv h
    exact Or.inl hev
  | listTicket c tok p =>
    rw [exec] at h
    obtain ⟨_, _, _, _, _, _, _, _, _, _, _, _, _, hs⟩ := listTicket_ok_inv h
    subst hs; exact Or.inl rfl
  | cancelListing c tok =>
    rw [exec] at h
    obtain ⟨_, _, _, _, _, hs⟩ := cancelListing_ok_inv h
    subst hs; exact Or.inl rfl
  | buyResale c tok v =>
    rw [exec, map_ok] at h
    obtain ⟨⟨sx, tr⟩, hp, hfst⟩ := h
    have hs' : sx = s' := hfst
    subst hs'
    obtain ⟨_, _, _, _, _, _, _, _, _, _, _, bal, hs⟩ := buyResale_ok_inv hp
    subst hs; exact Or.inl rfl
  | tick dt =>
    rw [exec] at h
    cases h; exact Or.inl rfl

/-- C8 (amended): after an event is created (its id is below `nextEventId`),
`organizer`, `saleStart`, `saleEnd`, `eventStart` and `basePriceWei` are never
mutated by any successful operation; the `cancelled` flag is mutated only by
`setCancelled` called by that organizer or the registry owner; and — contrary
to the claim as stated — the `ticketContract` reference is additionally
mutable, but only through `setTicketContract` called by the registry owner. -/
theorem C8_event_immutability :
    (∀ (a : Act) (s s' : Chain) (e : Nat), exec a s = .ok s' → e < s.nextEventId →
      (s'.events e).organizer = (s.events e).organizer ∧
      (s'.events e).saleStart = (s.events e).saleStart ∧
      (s'.events e).saleEnd = (s.events e).saleEnd ∧
      (s'.events e).eventStart = (s.events e).eventStart ∧
      (s'.events e).basePriceWei = (s.events e).basePriceWei) ∧
    (∀ (a : Act) (s s' : Chain) (e : Nat), exec a s = .ok s' → e < s.nextEventId →
      (s'.events e).cancelled ≠ (s.events e).cancelled →
      ∃ c f, a = Act.setCancelled c e f ∧
        (c = (s.events e).organizer ∨ c = s.registryOwner)) ∧
    (∀ (a : Act) (s s' : Chain) (e : Nat), exec a s = .ok s' → e < s.nextEventId →
      (s'.events e).ticketContract ≠ (s.events e).ticketContract →
      ∃ c tc, a = Act.setTicketContract c e tc ∧ c = s.registryOwner) := by
  refine ⟨?_, ?_, ?_⟩
  · intro a s s' e h hlt
    rcases exec_events_cases h with hev | ⟨c, tc, ss, se, es, bp, ha, hev⟩ |
      ⟨c, eid, f, ha, hauth, hev⟩ | ⟨c, eid, tc, ha, hauth, hev⟩
    · rw [hev]; exact ⟨rfl, rfl, rfl, rfl, rfl⟩
    · rw [hev]
      have hne : e ≠ s.nextEventId := Nat.ne_of_lt hlt
      simp [upd, hne]
    · rw [hev]
      by_cases he : e = eid <;> simp [upd, he]
    · rw [hev]
      by_cases he : e = eid <;> simp [upd, he]
  · intro a s s' e h hlt hdiff
    rcases exec_events_cases h with hev | ⟨c, tc, ss, se, es, bp, ha, hev⟩ |
      ⟨c, eid, f, ha, hauth, hev⟩ | ⟨c, eid, tc, ha, hauth, hev⟩
    · rw [hev] at hdiff; exact absurd rfl hdiff
    · rw [hev] at hdiff
      have hne : e ≠ s.nextEventId := Nat.ne_of_lt hlt
      simp [upd, hne] at hdiff
    · by_cases he : e = eid
      · subst he; exact ⟨c, f, ha, hauth⟩
      · rw [hev] at hdiff; simp [upd, he] at hdiff
    · rw [hev] at hdiff
      by_cases he : e = eid <;> simp [upd, he] at hdiff
  · intro a s s' e h hlt hdiff
    rcases exec_events_cases h with hev | ⟨c, tc, ss, se, es, bp, ha, hev⟩ |
      ⟨c, eid, f, ha, hauth, hev⟩ | ⟨c, eid, tc, ha, hauth, hev⟩
    · rw [hev] at hdiff; exact absurd rfl hdiff
    · rw [hev] at hdiff
      have hne : e ≠ s.nextEventId := Nat.ne_of_lt hlt
      simp [upd, hne] at hdiff
    · rw [hev] at hdiff
      by_cases he : e = eid <;> simp [upd, he] at hdiff
    · by_cases he : e = eid
      · subst he; exact ⟨c, tc, ha, hauth⟩
      · rw [hev] at hdiff; simp [upd, he] at hdiff

def c8s1 : Chain := applyAct (Act.createEvent 5 101 0 10 10 100) s0w

def c8end : Chain := applyAct (Act.setTicketContract 3 1 55) c8s1

/-- Counterexample to C8 as stated: on a reachable state holding a created
event, the registry owner successfully rewrites the stored `ticketContract`
of that event — a post-creation mutation of a field other than `cancelled`. -/
theorem C8_counterexample :
    Reachable c8s1 ∧ 1 < c8s1.nextEventId ∧ (c8s1.events 1).organizer ≠ 0 ∧
    Step (Act.setTicketContract 3 1 55) c8s1 c8end ∧
    (c8s1.events 1).ticketContract = 101 ∧ (c8end.events 1).ticketContract = 55 := by
  refine ⟨⟨wParams, wParamsOk, ?_⟩, by decide, by decide,
    ⟨⟨by decide, by decide, by decide⟩, by rfl⟩, by rfl, by rfl⟩
  have h1 : StepP (fun _ _ => True) s0w c8s1 :=
    stepP_applyAct (Act.createEvent 5 101 0 10 10 100) s0w
      ⟨by decide, by decide, by decide⟩ ⟨_, rfl⟩ trivial
  exact Relation.ReflTransGen.tail Relation.ReflTransGen.refl h1

/-- Witness for C8 at concrete inputs: the clock step preserves all
creation-time fields of event 1, and a concrete `setCancelled` is identified
as the only source of a `cancelled` change. -/
theorem C8_witness :
    ((applyAct (Act.tick 1) c8s1).events 1).organizer = (c8s1.events 1).organizer ∧
    (∃ c f, Act.setCancelled 5 1 true = Act.setCancelled c 1 f ∧
      (c = (c8s1.events 1).organizer ∨ c = c8s1.registryOwner)) := by
  constructor
  · exact (C8_event_immutability.1 (Act.tick 1) c8s1 _ 1 rfl (by decide)).1
  · exact C8_event_immutability.2.1 (Act.setCancelled 5 1 true) c8s1
      (applyAct (Act.setCancelled 5 1 true) c8s1) 1 (by rfl) (by decide) (by decide)

/-- Witness for C4 at concrete inputs: on the reachable state whose ticket 1
is USED, `useTicket` cannot succeed and leaves the state unchanged, and a
clock step preserves the terminal status. -/
theorem C4_witness :
    ((∀ s', useTicket c4mid 9 1 ≠ .ok s') ∧ run (Act.useTicket 9 1) c4mid = c4mid) ∧
    (applyAct (Act.tick 1) c4mid).statusOf 1 = c4mid.statusOf 1 := by
  constructor
  · exact C4_terminal_states.1 c4mid 9 1 (by decide)
  · exact C4_terminal_states.2 (Act.tick 1) c4mid _ 1 rfl
      (fun c t st h => by cases h) (by decide) (by decide)

/-! ## Claim C7 -/

/-- C7 (amended): `buyPrimary` evaluates its preconditions in exactly the
order of the source — qty > 0; event exists; event not cancelled; `now` inside
`[saleStart, saleEnd]`; the ticket-contract reference matches; KYC present,
not blocked, not expired; per-identity limit; payment — and the first failing
check determines the revert message; every revert leaves the state unchanged.
The claim as stated placed the ticket-contract check before the sale-window
check; the source checks the window first (see the counterexample). The
standing `v ≤ s.balances c` hypothesis is the substrate funding check that
precedes every payable call. -/
theorem ok_bind {α β : Type} {a : α} {k : α → Except Err β} :
    (Except.ok a >>= k : Except Err β) = k a := rfl

theorem error_bind {α β : Type} {e : Err} {k : α → Except Err β} :
    (Except.error e >>= k : Except Err β) = .error e := rfl

theorem map_error {α β : Type} {e : Err} {g : α → β} :
    (g <$> (Except.error e : Except Err α)) = .error e := rfl

theorem C7_buyPrimary_check_order :
    ∀ (s : Chain) (c : Addr) (eid qty v : Nat), v ≤ s.balances c →
      (qty = 0 → buyPrimary s c eid qty v = .error "Marketplace: qty=0") ∧
      (0 < qty → (s.events eid).organizer = 0 →
        buyPrimary s c eid qty v = .error "Marketplace: invalid event") ∧
      (0 < qty → (s.events eid).organizer ≠ 0 → (s.events eid).cancelled = true →
        buyPrimary s c eid qty v = .error "Marketplace: event cancelled") ∧
      (0 < qty → (s.events eid).organizer ≠ 0 → (s.events eid).cancelled = false →
        ¬ ((s.events eid).saleStart ≤ s.time ∧ s.time ≤ (s.events eid).saleEnd) →
        buyPrimary s c eid qty v = .error "Marketplace: sale closed") ∧
      (0 < qty → (s.events eid).organizer ≠ 0 → (s.events eid).cancelled = false →
        (s.events eid).saleStart ≤ s.time → s.time ≤ (s.events eid).saleEnd →
        (s.events eid).ticketContract ≠ s.nftAddr →
        buyPrimary s c eid qty v = .error "Marketplace: wrong ticket contract") ∧
      (0 < qty → (s.events eid).organizer ≠ 0 → (s.events eid).cancelled = false →
        (s.events eid).saleStart ≤ s.time → s.time ≤ (s.events eid).saleEnd →
        (s.events eid).ticketContract = s.nftAddr →
        (s.identities c).identityHash = 0 →
        buyPrimary s c eid qty v = .error "Marketplace: KYC required") ∧
      (0 < qty → (s.events eid).organizer ≠ 0 → (s.events eid).cancelled = false →
        (s.events eid).saleStart ≤ s.time → s.time ≤ (s.events eid).saleEnd →
        (s.events eid).ticketContract = s.nftAddr →
        (s.identities c).identityHash ≠ 0 → (s.identities c).blocked = true →
        buyPrimary s c eid qty v = .error "Marketplace: blocked") ∧
      (0 < qty → (s.events eid).organizer ≠ 0 → (s.events eid).cancelled = false →
        (s.events eid).saleStart ≤ s.time → s.time ≤ (s.events eid).saleEnd →
        (s.events eid).ticketContract = s.nftAddr →
        (s.identities c).identityHash ≠ 0 → (s.identities c).blocked = false →
        (s.identities c).expiry ≠ 0 → (s.identities c).expiry < s.time →
        buyPrimary s c eid qty v = .error "Marketplace: KYC expired") ∧
      (0 < qty → (s.events eid).organizer ≠ 0 → (s.events eid).cancelled = false →
        (s.events eid).saleStart ≤ s.time → s.time ≤ (s.events eid).saleEnd →
        (s.events eid).ticketContract = s.nftAddr →
        (s.identities c).identityHash ≠ 0 → (s.identities c).blocked = false →
        ((s.identities c).expiry ≠ 0 → s.time ≤ (s.identities c).expiry) →
        s.purchasedByIdentity eid (s.identities c).identityHash + qty < 2 ^ 32 →
        (s.identities c).maxTickets <
          s.purchasedByIdentity eid (s.identities c).identityHash + qty →
        buyPrimary s c eid qty v = .error "Marketplace: exceeds per-person limit") ∧
      (0 < qty → (s.events eid).organizer ≠ 0 → (s.events eid).cancelled = false →
        (s.events eid).saleStart ≤ s.time → s.time ≤ (s.events eid).saleEnd →
        (s.events eid).ticketContract = s.nftAddr →
        (s.identities c).identityHash ≠ 0 → (s.identities c).blocked = false →
        ((s.identities c).expiry ≠ 0 → s.time ≤ (s.identities c).expiry) →
        s.purchasedByIdentity eid (s.identities c).identityHash + qty < 2 ^ 32 →
        s.purchasedByIdentity eid (s.identities c).identityHash + qty ≤
          (s.identities c).maxTickets →
        (s.events eid).basePriceWei * qty < 2 ^ 256 →
        v < (s.events eid).basePriceWei * qty →
        buyPrimary s c eid qty v = .error "Marketplace: insufficient payment") ∧
      (∀ emsg, buyPrimary s c eid qty v = .error emsg →
        run (Act.buyPrimary c eid qty v) s = s) := by
  intro s c eid qty v hbal
  refine ⟨?_, ?_, ?_, ?_, ?_, ?_, ?_, ?_, ?_, ?_, ?_⟩
  · intro h1
    simp [buyPrimary, payIn, requireKycEligible, req, ok_bind, error_bind, map_error, hbal, h1]
  · intro h1 h2
    simp [buyPrimary, payIn, requireKycEligible, req, ok_bind, error_bind, map_error, hbal, h1, h2]
  · intro h1 h2 h3
    simp [buyPrimary, payIn, requireKycEligible, req, ok_bind, error_bind, map_error, hbal, h1, h2, h3]
  · intro h1 h2 h3 h4
    simp [buyPrimary, payIn, requireKycEligible, req, ok_bind, error_bind, map_error, hbal, h1, h2, h3, h4]
  · intro h1 h2 h3 h4 h5 h6
    simp [buyPrimary, payIn, requireKycEligible, req, ok_bind, error_bind, map_error, hbal, h1, h2, h3, h4, h5, h6]
  · intro h1 h2 h3 h4 h5 h6 h7
    simp [buyPrimary, payIn, requireKycEligible, req, ok_bind, error_bind, map_error, hbal, h1, h2, h3, h4, h5, h6, h7]
  · intro h1 h2 h3 h4 h5 h6 h7 h8
    simp [buyPrimary, payIn, requireKycEligible, req, ok_bind, error_bind, map_error, hbal, h1, h2, h3, h4, h5, h6, h7, h8]
  · intro h1 h2 h3 h4 h5 h6 h7 h8 h9 h10
    simp [buyPrimary, payIn, requireKycEligible, req, ok_bind, error_bind, map_error, hbal, h1, h2, h3, h4, h5, h6, h7, h8,
      h9, Nat.not_le.mpr h10]
  · intro h1 h2 h3 h4 h5 h6 h7 h8 h9 h10 h11
    have h10n : s.purchasedByIdentity eid (s.identities c).identityHash + qty <
      4294967296 := h10
    by_cases hex : (s.identities c).expiry = 0
    · simp [buyPrimary, payIn, requireKycEligible, req, ok_bind, error_bind, map_error,
        hbal, h1, h2, h3, h4, h5, h6, h7, h8, hex, h10n, Nat.not_le.mpr h11]
    · simp [buyPrimary, payIn, requireKycEligible, req, ok_bind, error_bind, map_error,
        hbal, h1, h2, h3, h4, h5, h6, h7, h8, hex, h9 hex, h10n, Nat.not_le.mpr h11]
  · intro h1 h2 h3 h4 h5 h6 h7 h8 h9 h10 h11 h12 h13
    have h10n : s.purchasedByIdentity eid (s.identities c).identityHash + qty <
      4294967296 := h10
    have h12n : (s.events eid).basePriceWei * qty <
      115792089237316195423570985008687907853269984665640564039457584007913129639936 := h12
    by_cases hex : (s.identities c).expiry = 0
    · simp [buyPrimary, payIn, requireKycEligible, req, ok_bind, error_bind, map_error,
        hbal, h1, h2, h3, h4, h5, h6, h7, h8, hex, h10n, h11, h12n, Nat.not_le.mpr h13]
    · simp [buyPrimary, payIn, requireKycEligible, req, ok_bind, error_bind, map_error,
        hbal, h1, h2, h3, h4, h5, h6, h7, h8, hex, h9 hex, h10n, h11, h12n, Nat.not_le.mpr h13]
  · intro emsg h
    exact run_of_error (show exec (Act.buyPrimary c eid qty v) s = .error emsg from h)

def c7s : Chain := applyAct (Act.createEvent 5 55 5 6 6 100) s0w

/-- Counterexample to C7 as stated: on a reachable state whose event has both
a sale window that is not yet open and a ticket-contract reference different
from the configured ledger, `buyPrimary` reports the sale-window error; the
claimed order would require the ticket-contract error to be reported first. -/
theorem C7_counterexample :
    Reachable c7s ∧
    (c7s.events 1).ticketContract ≠ c7s.nftAddr ∧
    ¬ ((c7s.events 1).saleStart ≤ c7s.time ∧ c7s.time ≤ (c7s.events 1).saleEnd) ∧
    buyPrimary c7s 6 1 1 0 = .error "Marketplace: sale closed" := by
  refine ⟨⟨wParams, wParamsOk, ?_⟩, by decide, by decide, by rfl⟩
  have h1 : StepP (fun _ _ => True) s0w c7s :=
    stepP_applyAct (Act.createEvent 5 55 5 6 6 100) s0w
      ⟨by decide, by decide, by decide⟩ ⟨_, rfl⟩ trivial
  exact Relation.ReflTransGen.tail Relation.ReflTransGen.refl h1

/-- Witness for C7 at a concrete input: the sale-window conjunct fires on a
reachable state. -/
theorem C7_witness : buyPrimary c7s 6 1 1 0 = .error "Marketplace: sale closed" :=
  (C7_buyPrimary_check_order c7s 6 1 1 0 (by decide)).2.2.2.1 (by decide) (by decide)
    (by rfl) (by decide)


theorem payIn_listings {s : Chain} {c v : Nat} : (payIn s c v).listings = s.listings := rfl
theorem payIn_events {s : Chain} {c v : Nat} : (payIn s c v).events = s.events := rfl
theorem payIn_eventIdOf {s : Chain} {c v : Nat} : (payIn s c v).eventIdOf = s.eventIdOf := rfl
theorem payIn_identities {s : Chain} {c v : Nat} : (payIn s c v).identities = s.identities := rfl
theorem payIn_time {s : Chain} {c v : Nat} : (payIn s c v).time = s.time := rfl
theorem payIn_eventConfig {s : Chain} {c v : Nat} : (payIn s c v).eventConfig = s.eventConfig := rfl
theorem payIn_resaleCount {s : Chain} {c v : Nat} : (payIn s c v).resaleCount = s.resaleCount := rfl
theorem payIn_ownerOf {s : Chain} {c v : Nat} : (payIn s c v).ownerOf = s.ownerOf := rfl
theorem payIn_statusOf {s : Chain} {c v : Nat} : (payIn s c v).statusOf = s.statusOf := rfl
theorem payIn_marketplace {s : Chain} {c v : Nat} : (payIn s c v).marketplace = s.marketplace := rfl
theorem payIn_mkAddr {s : Chain} {c v : Nat} : (payIn s c v).mkAddr = s.mkAddr := rfl
theorem payIn_nftAddr {s : Chain} {c v : Nat} : (payIn s c v).nftAddr = s.nftAddr := rfl
theorem payIn_accepts {s : Chain} {c v : Nat} : (payIn s c v).accepts = s.accepts := rfl
theorem payIn_tokenApproval {s : Chain} {c v : Nat} :
    (payIn s c v).tokenApproval = s.tokenApproval := rfl
theorem payIn_operatorApproval {s : Chain} {c v : Nat} :
    (payIn s c v).operatorApproval = s.operatorApproval := rfl
theorem payIn_balances {s : Chain} {c v : Nat} :
    (payIn s c v).balances = credit (debit s.balances c v) s.mkAddr v := rfl

/-- Successful execution of `buyResale` under explicitly listed preconditions:
the call commits, emits its effects in source order, deactivates the listing,
bumps the resale counter, hands the ticket to the buyer, and (when the buyer
is the seller but not the organizer) costs the buyer exactly the royalty. -/
theorem buyResale_success {s : Chain} {c : Addr} {tok v : Nat}
    (hbal : v ≤ s.balances c)
    (hact : (s.listings tok).active = true)
    (horg : (s.events (s.eventIdOf tok)).organizer ≠ 0)
    (hcanc : (s.events (s.eventIdOf tok)).cancelled = false)
    (htime : s.time < (s.events (s.eventIdOf tok)).eventStart)
    (hk1 : (s.identities c).identityHash ≠ 0)
    (hk2 : (s.identities c).blocked = false)
    (hk3 : (s.identities c).expiry ≠ 0 → s.time ≤ (s.identities c).expiry)
    (hpay : (s.listings tok).priceWei ≤ v)
    (hroyb : (s.eventConfig (s.eventIdOf tok)).royaltyBps ≤ 2000)
    (hovf : (s.listings tok).priceWei * (s.eventConfig (s.eventIdOf tok)).royaltyBps < 2 ^ 256)
    (haccS : s.accepts (s.listings tok).seller = true)
    (haccO : s.accepts (s.events (s.eventIdOf tok)).organizer = true)
    (haccC : s.accepts c = true)
    (h8 : s.resaleCount tok + 1 < 2 ^ 8)
    (hc0 : c ≠ 0)
    (hcmk : c ≠ s.mkAddr)
    (hsmk : (s.listings tok).seller ≠ s.mkAddr)
    (homk : (s.events (s.eventIdOf tok)).organizer ≠ s.mkAddr)
    (hown : s.ownerOf tok = s.mkAddr)
    (hmk0 : s.mkAddr ≠ 0)
    (hmkt : s.marketplace = s.mkAddr)
    (hst : s.statusOf tok = TicketStatus.VALID) :
    ∃ s', buyResale s c tok v = .ok (s',
        [Effect.deactivate tok,
         Effect.split
           (royaltyOf (s.listings tok).priceWei (s.eventConfig (s.eventIdOf tok)).royaltyBps)
           ((s.listings tok).priceWei -
             royaltyOf (s.listings tok).priceWei (s.eventConfig (s.eventIdOf tok)).royaltyBps),
         Effect.paySeller (s.listings tok).seller
           ((s.listings tok).priceWei -
             royaltyOf (s.listings tok).priceWei (s.eventConfig (s.eventIdOf tok)).royaltyBps)]
        ++ (if royaltyOf (s.listings tok).priceWei
              (s.eventConfig (s.eventIdOf tok)).royaltyBps ≠ 0 then
              [Effect.payOrganizer (s.events (s.eventIdOf tok)).organizer
                (royaltyOf (s.listings tok).priceWei
                  (s.eventConfig (s.eventIdOf tok)).royaltyBps)]
            else [])
        ++ (if (s.listings tok).priceWei < v then
              [Effect.refundBuyer c (v - (s.listings tok).priceWei)]
            else [])
        ++ [Effect.bumpResaleCount tok, Effect.ticketOut tok c]) ∧
      (s'.listings tok).active = false ∧
      s'.resaleCount tok = s.resaleCount tok + 1 ∧
      s'.ownerOf tok = c ∧
      (c = (s.listings tok).seller → c ≠ (s.events (s.eventIdOf tok)).organizer →
        s'.balances c +
          royaltyOf (s.listings tok).priceWei (s.eventConfig (s.eventIdOf tok)).royaltyBps =
          s.balances c) := by
  have hroyle : royaltyOf (s.listings tok).priceWei
      (s.eventConfig (s.eventIdOf tok)).royaltyBps ≤ (s.listings tok).priceWei :=
    royaltyOf_le_price (le_trans hroyb (by norm_num))
  have hmkc : s.mkAddr ≠ c := Ne.symm hcmk
  have hmks : s.mkAddr ≠ (s.listings tok).seller := Ne.symm hsmk
  have hmko : s.mkAddr ≠ (s.events (s.eventIdOf tok)).organizer := Ne.symm homk
  have hkyceq : requireKycEligible (payIn s c v) c =
      .ok ((s.identities c).identityHash, (s.identities c).maxTickets) := by
    rw [requireKycEligible_ok]
    exact ⟨hk1, hk2, hk3, rfl⟩
  have hovfn : (s.listings tok).priceWei * (s.eventConfig (s.eventIdOf tok)).royaltyBps <
      115792089237316195423570985008687907853269984665640564039457584007913129639936 := hovf
  have h8n : s.resaleCount tok + 1 < 256 := h8
  have hA : (s.listings tok).priceWei ≤ s.balances s.mkAddr + v := by omega
  have hA2 : (s.listings tok).priceWei ≤ s.balances s.mkAddr + v +
      royaltyOf (s.listings tok).priceWei (s.eventConfig (s.eventIdOf tok)).royaltyBps := by
    omega
  have hC : royaltyOf (s.listings tok).priceWei (s.eventConfig (s.eventIdOf tok)).royaltyBps ≤
      s.balances s.mkAddr + v - ((s.listings tok).priceWei -
        royaltyOf (s.listings tok).priceWei (s.eventConfig (s.eventIdOf tok)).royaltyBps) := by
    omega
  have hB : v ≤ s.balances s.mkAddr + v - (s.listings tok).priceWei +
      (s.listings tok).priceWei := by omega
  have hD : v ≤ s.balances s.mkAddr + v - ((s.listings tok).priceWei -
        royaltyOf (s.listings tok).priceWei (s.eventConfig (s.eventIdOf tok)).royaltyBps) -
      royaltyOf (s.listings tok).priceWei (s.eventConfig (s.eventIdOf tok)).royaltyBps +
      (s.listings tok).priceWei := by omega
  by_cases hroy : royaltyOf (s.listings tok).priceWei
      (s.eventConfig (s.eventIdOf tok)).royaltyBps = 0 <;>
  by_cases hrf : (s.listings tok).priceWei < v
  · simp [buyResale, payIn_listings, payIn_events, payIn_eventIdOf, payIn_identities,
      payIn_time, payIn_eventConfig, payIn_resaleCount, payIn_ownerOf, payIn_statusOf,
      payIn_marketplace, payIn_mkAddr, payIn_nftAddr, payIn_accepts, payIn_tokenApproval,
      payIn_operatorApproval, payIn_balances, hkyceq, req, sendValue, transferFrom,
      erc721Update, credit, debit, upd, ok_bind, error_bind, map_error, hbal, hact, horg,
      hcanc, htime, hpay, hovfn, haccS, haccO, haccC, h8n, hc0, hcmk, hsmk, homk, hown,
      hmk0, hmkt, hst, hmkc, hmks, hmko, hroy, hrf, hroyle, hA, hA2, hC, hB, hD]
    intro hcs hco
    have hoc : (s.events (s.eventIdOf tok)).organizer ≠ c := Ne.symm hco
    simp [← hcs, hco, hoc]
    omega
  · simp [buyResale, payIn_listings, payIn_events, payIn_eventIdOf, payIn_identities,
      payIn_time, payIn_eventConfig, payIn_resaleCount, payIn_ownerOf, payIn_statusOf,
      payIn_marketplace, payIn_mkAddr, payIn_nftAddr, payIn_accepts, payIn_tokenApproval,
      payIn_operatorApproval, payIn_balances, hkyceq, req, sendValue, transferFrom,
      erc721Update, credit, debit, upd, ok_bind, error_bind, map_error, hbal, hact, horg,
      hcanc, htime, hpay, hovfn, haccS, haccO, haccC, h8n, hc0, hcmk, hsmk, homk, hown,
      hmk0, hmkt, hst, hmkc, hmks, hmko, hroy, hrf, hroyle, hA, hA2, hC, hB, hD]
    intro hcs hco
    have hoc : (s.events (s.eventIdOf tok)).organizer ≠ c := Ne.symm hco
    simp [← hcs, hco, hoc]
    omega
  · simp [buyResale, payIn_listings, payIn_events, payIn_eventIdOf, payIn_identities,
      payIn_time, payIn_eventConfig, payIn_resaleCount, payIn_ownerOf, payIn_statusOf,
      payIn_marketplace, payIn_mkAddr, payIn_nftAddr, payIn_accepts, payIn_tokenApproval,
      payIn_operatorApproval, payIn_balances, hkyceq, req, sendValue, transferFrom,
      erc721Update, credit, debit, upd, ok_bind, error_bind, map_error, hbal, hact, horg,
      hcanc, htime, hpay, hovfn, haccS, haccO, haccC, h8n, hc0, hcmk, hsmk, homk, hown,
      hmk0, hmkt, hst, hmkc, hmks, hmko, hroy, hrf, hroyle, hA, hA2, hC, hB, hD]
    intro hcs hco
    have hoc : (s.events (s.eventIdOf tok)).organizer ≠ c := Ne.symm hco
    simp [← hcs, hco, hoc]
    omega
  · simp [buyResale, payIn_listings, payIn_events, payIn_eventIdOf, payIn_identities,
      payIn_time, payIn_eventConfig, payIn_resaleCount, payIn_ownerOf, payIn_statusOf,
      payIn_marketplace, payIn_mkAddr, payIn_nftAddr, payIn_accepts, payIn_tokenApproval,
      payIn_operatorApproval, payIn_balances, hkyceq, req, sendValue, transferFrom,
      erc721Update, credit, debit, upd, ok_bind, error_bind, map_error, hbal, hact, horg,
      hcanc, htime, hpay, hovfn, haccS, haccO, haccC, h8n, hc0, hcmk, hsmk, homk, hown,
      hmk0, hmkt, hst, hmkc, hmks, hmko, hroy, hrf, hroyle, hA, hA2, hC, hB, hD]
    intro hcs hco
    have hoc : (s.events (s.eventIdOf tok)).organizer ≠ c := Ne.symm hco
    simp [← hcs, hco, hoc]
    omega

/-! ## Claim C3 -/

/-- C3: every successful `buyResale` performs its effects in exactly the
source order — deactivate the listing, compute the integer split, pay the
seller, pay the organizer when the royalty is nonzero, refund any excess to
the buyer, bump the resale count, move the ticket out of escrow — and its
state effects persist (first conjunct); and whenever one of the three payment
transfers cannot be delivered, the call cannot succeed and the transaction
leaves the state exactly as before (second conjunct). -/
theorem C3_buyResale_order_atomic :
    (∀ (s s' : Chain) (c : Addr) (tok v : Nat) (tr : List Effect),
      buyResale s c tok v = .ok (s', tr) →
      tr = [Effect.deactivate tok,
            Effect.split
              (royaltyOf (s.listings tok).priceWei (s.eventConfig (s.eventIdOf tok)).royaltyBps)
              ((s.listings tok).priceWei -
                royaltyOf (s.listings tok).priceWei (s.eventConfig (s.eventIdOf tok)).royaltyBps),
            Effect.paySeller (s.listings tok).seller
              ((s.listings tok).priceWei -
                royaltyOf (s.listings tok).priceWei (s.eventConfig (s.eventIdOf tok)).royaltyBps)]
        ++ (if royaltyOf (s.listings tok).priceWei
              (s.eventConfig (s.eventIdOf tok)).royaltyBps ≠ 0 then
              [Effect.payOrganizer (s.events (s.eventIdOf tok)).organizer
                (royaltyOf (s.listings tok).priceWei
                  (s.eventConfig (s.eventIdOf tok)).royaltyBps)]
            else [])
        ++ (if (s.listings tok).priceWei < v then
              [Effect.refundBuyer c (v - (s.listings tok).priceWei)]
            else [])
        ++ [Effect.bumpResaleCount tok, Effect.ticketOut tok c] ∧
      (s'.listings tok).active = false ∧
      s'.resaleCount tok = s.resaleCount tok + 1 ∧
      s'.ownerOf tok = c) ∧
    (∀ (s : Chain) (c : Addr) (tok v : Nat),
      ¬ (s.accepts (s.listings tok).seller = true ∧
         (royaltyOf (s.listings tok).priceWei
            (s.eventConfig (s.eventIdOf tok)).royaltyBps ≠ 0 →
          s.accepts (s.events (s.eventIdOf tok)).organizer = true) ∧
         ((s.listings tok).priceWei < v → s.accepts c = true)) →
      (∀ s' tr, buyResale s c tok v ≠ .ok (s', tr)) ∧ run (Act.buyResale c tok v) s = s) := by
  constructor
  · intro s s' c tok v tr h
    obtain ⟨_, _, _, _, _, _, _, _, _, htr, _, bal, hs⟩ := buyResale_ok_inv h
    subst hs
    refine ⟨htr, ?_, ?_, ?_⟩ <;> simp [upd]
  · intro s c tok v hnacc
    have hne : ∀ s' tr, buyResale s c tok v ≠ .ok (s', tr) := by
      intro s' tr h
      obtain ⟨_, _, _, _, _, _, h7, h8, h9, _⟩ := buyResale_ok_inv h
      exact hnacc ⟨h7, h8, h9⟩
    refine ⟨hne, ?_⟩
    cases hE : buyResale s c tok v with
    | ok p =>
      cases p with
      | mk a b => exact absurd hE (hne a b)
    | error e =>
      have hx : exec (Act.buyResale c tok v) s = .error e := by
        show (buyResale s c tok v).map Prod.fst = .error e
        rw [hE]; rfl
      exact run_of_error hx

def r1 : Chain := applyAct (Act.createEvent 5 101 0 10 10 100) s0w
def r2 : Chain := applyAct (Act.setEventConfig 5 1 true 20000 0 500) r1
def r3 : Chain := applyAct (Act.grantRole 1 Role.minterRole 7) r2
def r4 : Chain := applyAct (Act.mintTo 7 6 1) r3
def r5 : Chain := applyAct (Act.setMarketplace 1 100) r4
def r6 : Chain := applyAct (Act.approve 6 100 1) r5
def r7 : Chain := applyAct (Act.listTicket 6 1 200) r6
def r8 : Chain := applyAct (Act.updateIdentity 2 8 9 2 false 0) r7

def c3out : Chain × List Effect := (buyResale r8 8 1 250).toOption.getD (r8, [])

/-- Witness for C3 on a concrete successful resale: event base price 100,
listing price 200, royalty 500 bps, payment 250. -/
theorem C3_witness :
    c3out.2 = [Effect.deactivate 1,
          Effect.split
            (royaltyOf (r8.listings 1).priceWei (r8.eventConfig (r8.eventIdOf 1)).royaltyBps)
            ((r8.listings 1).priceWei -
              royaltyOf (r8.listings 1).priceWei (r8.eventConfig (r8.eventIdOf 1)).royaltyBps),
          Effect.paySeller (r8.listings 1).seller
            ((r8.listings 1).priceWei -
              royaltyOf (r8.listings 1).priceWei (r8.eventConfig (r8.eventIdOf 1)).royaltyBps)]
      ++ (if royaltyOf (r8.listings 1).priceWei
            (r8.eventConfig (r8.eventIdOf 1)).royaltyBps ≠ 0 then
            [Effect.payOrganizer (r8.events (r8.eventIdOf 1)).organizer
              (royaltyOf (r8.listings 1).priceWei
                (r8.eventConfig (r8.eventIdOf 1)).royaltyBps)]
          else [])
      ++ (if (r8.listings 1).priceWei < 250 then
            [Effect.refundBuyer 8 (250 - (r8.listings 1).priceWei)]
          else [])
      ++ [Effect.bumpResaleCount 1, Effect.ticketOut 1 8] ∧
    (c3out.1.listings 1).active = false ∧
    c3out.1.resaleCount 1 = r8.resaleCount 1 + 1 ∧
    c3out.1.ownerOf 1 = 8 :=
  C3_buyResale_order_atomic.1 r8 c3out.1 8 1 250 c3out.2 (by rfl)

/-! ## Claim C10 -/

/-- C10: `buyResale` never compares the buyer with the seller of the listing.
A KYC-eligible seller can buy back their own active listing with any payment
of at least the price: the call succeeds, the listing is deactivated, the
resale count increments, the ticket leaves escrow back to the seller, and —
when the seller is not also the organizer — the net cost to the seller is
exactly the royalty (all excess payment is refunded). -/
theorem C10_seller_can_self_buy {s : Chain} {tok v : Nat}
    (hbal : v ≤ s.balances (s.listings tok).seller)
    (hact : (s.listings tok).active = true)
    (horg : (s.events (s.eventIdOf tok)).organizer ≠ 0)
    (hcanc : (s.events (s.eventIdOf tok)).cancelled = false)
    (htime : s.time < (s.events (s.eventIdOf tok)).eventStart)
    (hk1 : (s.identities (s.listings tok).seller).identityHash ≠ 0)
    (hk2 : (s.identities (s.listings tok).seller).blocked = false)
    (hk3 : (s.identities (s.listings tok).seller).expiry ≠ 0 →
      s.time ≤ (s.identities (s.listings tok).seller).expiry)
    (hpay : (s.listings tok).priceWei ≤ v)
    (hroyb : (s.eventConfig (s.eventIdOf tok)).royaltyBps ≤ 2000)
    (hovf : (s.listings tok).priceWei * (s.eventConfig (s.eventIdOf tok)).royaltyBps < 2 ^ 256)
    (haccS : s.accepts (s.listings tok).seller = true)
    (haccO : s.accepts (s.events (s.eventIdOf tok)).organizer = true)
    (h8 : s.resaleCount tok + 1 < 2 ^ 8)
    (hc0 : (s.listings tok).seller ≠ 0)
    (hcmk : (s.listings tok).seller ≠ s.mkAddr)
    (homk : (s.events (s.eventIdOf tok)).organizer ≠ s.mkAddr)
    (hso : (s.listings tok).seller ≠ (s.events (s.eventIdOf tok)).organizer)
    (hown : s.ownerOf tok = s.mkAddr)
    (hmk0 : s.mkAddr ≠ 0)
    (hmkt : s.marketplace = s.mkAddr)
    (hst : s.statusOf tok = TicketStatus.VALID) :
    ∃ s' tr, buyResale s (s.listings tok).seller tok v = .ok (s', tr) ∧
      (s'.listings tok).active = false ∧
      s'.resaleCount tok = s.resaleCount tok + 1 ∧
      s'.ownerOf tok = (s.listings tok).seller ∧
      s'.balances (s.listings tok).seller +
        royaltyOf (s.listings tok).priceWei (s.eventConfig (s.eventIdOf tok)).royaltyBps =
        s.balances (s.listings tok).seller := by
  obtain ⟨s', h1, h2, h3, h4, h5⟩ :=
    buyResale_success hbal hact horg hcanc htime hk1 hk2 hk3 hpay hroyb hovf haccS haccO
      haccS h8 hc0 hcmk hcmk homk hown hmk0 hmkt hst
  exact ⟨s', _, h1, h2, h3, h4, h5 rfl hso⟩

def r8b : Chain := applyAct (Act.updateIdentity 2 6 5 2 false 0) r7

/-- Witness for C10: seller 6 buys back their own listing of token 1 at the
exact price 200; the royalty is 10. -/
theorem C10_witness :
    ∃ s' tr, buyResale r8b (r8b.listings 1).seller 1 200 = .ok (s', tr) ∧
      (s'.listings 1).active = false ∧
      s'.resaleCount 1 = r8b.resaleCount 1 + 1 ∧
      s'.ownerOf 1 = (r8b.listings 1).seller ∧
      s'.balances (r8b.listings 1).seller +
        royaltyOf (r8b.listings 1).priceWei (r8b.eventConfig (r8b.eventIdOf 1)).royaltyBps =
        r8b.balances (r8b.listings 1).seller :=
  C10_seller_can_self_buy (by decide) (by decide) (by decide) (by decide) (by decide)
    (by decide) (by decide) (by decide) (by decide) (by decide) (by decide) (by decide)
    (by decide) (by decide) (by decide) (by decide) (by decide) (by decide) (by decide)
    (by decide) (by decide) (by decide)

/-! ## Claim C1 -/

/-- Induction principle for restricted reachability. -/
theorem reachP_ind {P : Chain → Act → Prop} {Inv : Chain → Prop}
    (hinit : ∀ p : DeployParams, ParamsOk p → Inv (initChain p))
    (hstep : ∀ s s', Inv s → StepP P s s' → Inv s') :
    ∀ s, ReachableP P s → Inv s := by
  rintro s ⟨p, hp, hreach⟩
  induction hreach with
  | refl => exact hinit p hp
  | tail h1 h2 ih => exact hstep _ _ ih h2

/-- Trace restriction under which the purchase-cap invariant survives: an
oracle rewrite of a wallet record must not push `maxTickets` below a counter
already accumulated for that identityHash, and must agree with any other
wallet that carries the same identityHash. -/
def C1Ok (s : Chain) : Act → Prop
  | Act.updateIdentity _ w hh m _ _ =>
      (∀ e, s.purchasedByIdentity e hh ≤ m) ∧
      (∀ w2, w2 ≠ w → (s.identities w2).identityHash = hh →
        (s.identities w2).maxTickets = m)
  | _ => True

/-- The purchase-cap invariant of the spec: wallets sharing an identityHash
agree on `maxTickets`, and every primary-sale counter is bounded by the
`maxTickets` of the identity it counts. -/
def PurchaseCapInv (s : Chain) : Prop :=
  (∀ w w2, (s.identities w).identityHash ≠ 0 →
    (s.identities w).identityHash = (s.identities w2).identityHash →
    (s.identities w).maxTickets = (s.identities w2).maxTickets) ∧
  (∀ w e, (s.identities w).identityHash ≠ 0 →
    s.purchasedByIdentity e ((s.identities w).identityHash) ≤ (s.identities w).maxTickets)

/-- C1 (amended): `purchased[eventId][identityHash] ≤ maxTickets(identityHash)`
holds in every state reachable while `updateIdentity` writes never lower a
limit below an existing counter (and keep shared identityHashes consistent);
`buyPrimary` itself can never break the bound. Without that restriction the
invariant fails: see the counterexample, where a later `updateIdentity`
lowers `maxTickets` under an existing counter. -/
theorem C1_purchase_cap : ∀ s, ReachableP C1Ok s → PurchaseCapInv s := by
  refine reachP_ind ?_ ?_
  · intro p hp
    constructor
    · intro w w2 hw
      simp [initChain, defaultIdentity] at hw
    · intro w e hw
      simp [initChain, defaultIdentity] at hw
  · rintro s s' hInv ⟨a, ⟨hcall, hex⟩, hP⟩
    obtain ⟨hcons, hcap⟩ := hInv
    cases a with
    | updateIdentity c w hh m b ex =>
      rw [exec, updateIdentity_ok] at hex
      obtain ⟨_, hw0, hh0, hs⟩ := hex
      obtain ⟨hP1, hP2⟩ := hP
      subst hs
      constructor
      · intro w1 w2 h1 h2
        by_cases e1 : w1 = w <;> by_cases e2 : w2 = w <;> simp [e1, e2] at h1 h2 ⊢
        · exact (hP2 w2 e2 h2.symm).symm
        · exact hP2 w1 e1 h2
        · exact hcons w1 w2 h1 h2
      · intro w1 e h1
        by_cases e1 : w1 = w <;> simp [e1] at h1 ⊢
        · exact hP1 e
        · exact hcap w1 e h1
    | buyPrimary c eid q v =>
      rw [exec] at hex
      obtain ⟨hkh, hlim, hid, hpur, _⟩ := buyPrimary_ok_inv hex
      constructor
      · intro w1 w2 h1 h2
        rw [hid] at h1 h2 ⊢
        exact hcons w1 w2 h1 h2
      · intro w1 e h1
        rw [hid] at h1 ⊢
        rw [hpur]
        by_cases hcase : e = eid ∧
          (s.identities w1).identityHash = (s.identities c).identityHash
        · obtain ⟨he, hh⟩ := hcase
          have hmt : (s.identities w1).maxTickets = (s.identities c).maxTickets :=
            hcons w1 c h1 hh
          simp [upd2, he, hh, hmt]
          exact hlim
        · simp only [upd2]
          rw [if_neg]
          · exact hcap w1 e h1
          · exact hcase
    | setOracle c n =>
      rw [exec, setOracle_ok] at hex
      obtain ⟨_, _, hs⟩ := hex
      subst hs; exact ⟨hcons, hcap⟩
    | createEvent c tc ss se es bp =>
      rw [exec, createEvent_ok] at hex
      obtain ⟨_, _, _, _, hs⟩ := hex
      subst hs; exact ⟨hcons, hcap⟩
    | setCancelled c eid f =>
      rw [exec, setCancelled_ok] at hex
      obtain ⟨_, _, hs⟩ := hex
      subst hs; exact ⟨hcons, hcap⟩
    | setTicketContract c eid tc =>
      rw [exec, setTicketContract_ok] at hex
      obtain ⟨_, _, _, hs⟩ := hex
      subst hs; exact ⟨hcons, hcap⟩
    | grantRole c r acct =>
      rw [exec, grantRole_ok] at hex
      obtain ⟨_, hs⟩ := hex
      cases r <;> (subst hs; exact ⟨hcons, hcap⟩)
    | setMarketplace c n =>
      rw [exec, setMarketplace_ok] at hex
      obtain ⟨_, _, hs⟩ := hex
      subst hs; exact ⟨hcons, hcap⟩
    | mintTo c dst eid =>
      rw [exec, mintTo_ok] at hex
      obtain ⟨_, _, _, hs⟩ := hex
      subst hs; exact ⟨hcons, hcap⟩
    | useTicket c tok =>
      rw [exec, useTicket_ok] at hex
      obtain ⟨_, _, _, hs⟩ := hex
      subst hs; exact ⟨hcons, hcap⟩
    | setStatus c tok st =>
      rw [exec, setStatus_ok] at hex
      obtain ⟨_, _, hs⟩ := hex
      subst hs; exact ⟨hcons, hcap⟩
    | approve c dst tok =>
      rw [exec, approve_ok] at hex
      obtain ⟨_, _, hs⟩ := hex
      subst hs; exact ⟨hcons, hcap⟩
    | setApprovalForAll c op ap =>
      rw [exec, setApprovalForAll_ok] at hex
      obtain ⟨_, hs⟩ := hex
      subst hs; exact ⟨hcons, hcap⟩
    | transferFrom c frm dst tok =>
      rw [exec, transferFrom_ok] at hex
      obtain ⟨_, _, _, _, hs⟩ := hex
      subst hs; exact ⟨hcons, hcap⟩
    | setEventConfig c eid en cap mr roy =>
      rw [exec, setEventConfig_ok] at hex
      obtain ⟨_, _, _, _, _, hs⟩ := hex
      subst hs; exact ⟨hcons, hcap⟩
    | listTicket c tok p =>
      rw [exec] at hex
      obtain ⟨_, _, _, _, _, _, _, _, _, _, _, _, _, hs⟩ := listTicket_ok_inv hex
      subst hs; exact ⟨hcons, hcap⟩
    | cancelListing c tok =>
      rw [exec] at hex
      obtain ⟨_, _, _, _, _, hs⟩ := cancelListing_ok_inv hex
      subst hs; exact ⟨hcons, hcap⟩
    | buyResale c tok v =>
      rw [exec, map_ok] at hex
      obtain ⟨⟨sx, tr⟩, hp2, hfst⟩ := hex
      have hs' : sx = s' := hfst
      subst hs'
      obtain ⟨_, _, _, _, _, _, _, _, _, _, _, bal, hs⟩ := buyResale_ok_inv hp2
      subst hs; exact ⟨hcons, hcap⟩
    | tick dt =>
      rw [exec] at hex
      cases hex; exact ⟨hcons, hcap⟩

def c1a : Chain := applyAct (Act.updateIdentity 2 6 5 2 false 0) s0w
def c1b : Chain := applyAct (Act.createEvent 5 101 0 10 10 1) c1a
def c1c : Chain := applyAct (Act.grantRole 1 Role.minterRole 100) c1b
def c1d : Chain := applyAct (Act.buyPrimary 6 1 2 2) c1c
def c1e : Chain := applyAct (Act.updateIdentity 2 6 5 1 false 0) c1d

/-- Counterexample to C1 as stated: wallet 6 buys its full allowance of 2
tickets, then the oracle lowers its `maxTickets` to 1; in the resulting
reachable state the counter strictly exceeds the registered limit. -/
theorem C1_counterexample :
    Reachable c1e ∧ (c1e.identities 6).identityHash = 5 ∧
    (c1e.identities 6).maxTickets = 1 ∧ c1e.purchasedByIdentity 1 5 = 2 ∧
    ¬ (c1e.purchasedByIdentity 1 ((c1e.identities 6).identityHash) ≤
        (c1e.identities 6).maxTickets) := by
  refine ⟨⟨wParams, wParamsOk, ?_⟩, by rfl, by rfl, by rfl, by decide⟩
  have h1 : StepP (fun _ _ => True) s0w c1a :=
    stepP_applyAct (Act.updateIdentity 2 6 5 2 false 0) s0w
      ⟨by decide, by decide, by decide⟩ ⟨_, rfl⟩ trivial
  have h2 : StepP (fun _ _ => True) c1a c1b :=
    stepP_applyAct (Act.createEvent 5 101 0 10 10 1) c1a
      ⟨by decide, by decide, by decide⟩ ⟨_, rfl⟩ trivial
  have h3 : StepP (fun _ _ => True) c1b c1c :=
    stepP_applyAct (Act.grantRole 1 Role.minterRole 100) c1b
      ⟨by decide, by decide, by decide⟩ ⟨_, rfl⟩ trivial
  have h4 : StepP (fun _ _ => True) c1c c1d :=
    stepP_applyAct (Act.buyPrimary 6 1 2 2) c1c
      ⟨by decide, by decide, by decide⟩ ⟨_, rfl⟩ trivial
  have h5 : StepP (fun _ _ => True) c1d c1e :=
    stepP_applyAct (Act.updateIdentity 2 6 5 1 false 0) c1d
      ⟨by decide, by decide, by decide⟩ ⟨_, rfl⟩ trivial
  exact Relation.ReflTransGen.tail (Relation.ReflTransGen.tail (Relation.ReflTransGen.tail
    (Relation.ReflTransGen.tail (Relation.ReflTransGen.tail
      Relation.ReflTransGen.refl h1) h2) h3) h4) h5

/-- Witness for C1 on a concrete restricted trace: after wallet 6 bought its
2 tickets (and no lowering rewrite happened), the counter respects the
limit. -/
theorem C1_witness :
    c1d.purchasedByIdentity 1 ((c1d.identities 6).identityHash) ≤
      (c1d.identities 6).maxTickets := by
  have h1 : StepP C1Ok s0w c1a :=
    stepP_applyAct (Act.updateIdentity 2 6 5 2 false 0) s0w
      ⟨by decide, by decide, by decide⟩ ⟨_, rfl⟩
      ⟨fun e => Nat.zero_le 2, fun w2 hne hh => absurd hh (by decide : ¬ (0 : Nat) = 5)⟩
  have h2 : StepP C1Ok c1a c1b :=
    stepP_applyAct (Act.createEvent 5 101 0 10 10 1) c1a
      ⟨by decide, by decide, by decide⟩ ⟨_, rfl⟩ trivial
  have h3 : StepP C1Ok c1b c1c :=
    stepP_applyAct (Act.grantRole 1 Role.minterRole 100) c1b
      ⟨by decide, by decide, by decide⟩ ⟨_, rfl⟩ trivial
  have h4 : StepP C1Ok c1c c1d :=
    stepP_applyAct (Act.buyPrimary 6 1 2 2) c1c
      ⟨by decide, by decide, by decide⟩ ⟨_, rfl⟩ trivial
  have hreach : ReachableP C1Ok c1d :=
    ⟨wParams, wParamsOk, Relation.ReflTransGen.tail (Relation.ReflTransGen.tail
      (Relation.ReflTransGen.tail (Relation.ReflTransGen.tail
        Relation.ReflTransGen.refl h1) h2) h3) h4⟩
  exact (C1_purchase_cap c1d hreach).2 6 1 (by decide)

/-! ## Claim C5 -/

/-- Trace restriction under which the escrow invariant survives: the check-in
role must not redeem a ticket that sits in an active listing, and the admin
override must not move such a ticket out of VALID. -/
def C5Ok (s : Chain) : Act → Prop
  | Act.useTicket _ tok => (s.listings tok).active = false
  | Act.setStatus _ tok st => (s.listings tok).active = false ∨ st = TicketStatus.VALID
  | _ => True

/-- The escrow invariant of the spec: every actively listed ticket is owned
by the Marketplace contract, carries no per-token approval, and is VALID. -/
def EscrowInv (s : Chain) : Prop :=
  s.mkAddr ≠ 0 ∧
  (∀ x, s.operatorApproval s.mkAddr x = false) ∧
  (∀ tok, (s.listings tok).active = true →
    s.ownerOf tok = s.mkAddr ∧ s.tokenApproval tok = 0 ∧
    s.statusOf tok = TicketStatus.VALID)

/-- C5 (amended): in every state reachable while `useTicket` and `setStatus`
are never applied against an actively listed ticket (other than setting it
VALID), each active listing has its ticket owned by the Marketplace (escrow),
unapproved, and VALID. The escrow-ownership part cannot be broken by any
operation at all; the VALID part does need the restriction — the admin
`setStatus` override and the check-in `useTicket` can invalidate an escrowed
listed ticket (see the counterexample). -/
theorem C5_escrow_invariant : ∀ s, ReachableP C5Ok s → EscrowInv s := by
  refine reachP_ind ?_ ?_
  · intro p hp
    refine ⟨hp.2.2.1, fun x => rfl, ?_⟩
    intro tok h
    simp [initChain, defaultListing] at h
  · rintro s s' hInv ⟨a, ⟨hcall, hex⟩, hP⟩
    obtain ⟨hmk, hop, hesc⟩ := hInv
    cases a with
    | updateIdentity c w hh m b ex =>
      rw [exec, updateIdentity_ok] at hex
      obtain ⟨_, _, _, hs⟩ := hex
      subst hs; exact ⟨hmk, hop, hesc⟩
    | setOracle c n =>
      rw [exec, setOracle_ok] at hex
      obtain ⟨_, _, hs⟩ := hex
      subst hs; exact ⟨hmk, hop, hesc⟩
    | createEvent c tc ss se es bp =>
      rw [exec, createEvent_ok] at hex
      obtain ⟨_, _, _, _, hs⟩ := hex
      subst hs; exact ⟨hmk, hop, hesc⟩
    | setCancelled c eid f =>
      rw [exec, setCancelled_ok] at hex
      obtain ⟨_, _, hs⟩ := hex
      subst hs; exact ⟨hmk, hop, hesc⟩
    | setTicketContract c eid tc =>
      rw [exec, setTicketContract_ok] at hex
      obtain ⟨_, _, _, hs⟩ := hex
      subst hs; exact ⟨hmk, hop, hesc⟩
    | grantRole c r acct =>
      rw [exec, grantRole_ok] at hex
      obtain ⟨_, hs⟩ := hex
      cases r <;> (subst hs; exact ⟨hmk, hop, hesc⟩)
    | setMarketplace c n =>
      rw [exec, setMarketplace_ok] at hex
      obtain ⟨_, _, hs⟩ := hex
      subst hs; exact ⟨hmk, hop, hesc⟩
    | setEventConfig c eid en cap mr roy =>
      rw [exec, setEventConfig_ok] at hex
      obtain ⟨_, _, _, _, _, hs⟩ := hex
      subst hs; exact ⟨hmk, hop, hesc⟩
    | tick dt =>
      rw [exec] at hex
      cases hex; exact ⟨hmk, hop, hesc⟩
    | mintTo c dst eid =>
      rw [exec, mintTo_ok] at hex
      obtain ⟨_, _, h0, hs⟩ := hex
      subst hs
      refine ⟨hmk, hop, ?_⟩
      intro tok hact
      obtain ⟨ho, ha, hst⟩ := hesc tok hact
      have hne : tok ≠ s.nextTokenId := by
        intro he
        apply hmk
        rw [← ho, he]
        exact h0
      exact ⟨by simpa [upd, hne] using ho, ha, by simpa [upd, hne] using hst⟩
    | useTicket c tok2 =>
      have hP2 : (s.listings tok2).active = false := hP
      rw [exec, useTicket_ok] at hex
      obtain ⟨_, _, _, hs⟩ := hex
      subst hs
      refine ⟨hmk, hop, ?_⟩
      intro tok hact
      have hact2 : (s.listings tok).active = true := hact
      obtain ⟨ho, ha, hst⟩ := hesc tok hact2
      have hne : tok ≠ tok2 := by
        intro he
        rw [he, hP2] at hact2
        exact Bool.noConfusion hact2
      exact ⟨ho, ha, by simpa [upd, hne] using hst⟩
    | setStatus c tok2 st =>
      have hP2 : (s.listings tok2).active = false ∨ st = TicketStatus.VALID := hP
      rw [exec, setStatus_ok] at hex
      obtain ⟨_, _, hs⟩ := hex
      subst hs
      refine ⟨hmk, hop, ?_⟩
      intro tok hact
      have hact2 : (s.listings tok).active = true := hact
      obtain ⟨ho, ha, hst⟩ := hesc tok hact2
      by_cases hne : tok = tok2
      · rcases hP2 with h | h
        · rw [hne, h] at hact2
          exact Bool.noConfusion hact2
        · refine ⟨ho, ha, ?_⟩
          rw [hne]
          simp [upd, h]
      · exact ⟨ho, ha, by simpa [upd, hne] using hst⟩
    | approve c dst tok2 =>
      rw [exec, approve_ok] at hex
      obtain ⟨hown2, hauth, hs⟩ := hex
      obtain ⟨hc0, hcmk, hcnft⟩ := hcall
      have hc9 : c ≠ s.mkAddr := hcmk
      subst hs
      refine ⟨hmk, hop, ?_⟩
      intro tok hact
      have hact2 : (s.listings tok).active = true := hact
      obtain ⟨ho, ha, hst⟩ := hesc tok hact2
      by_cases hne : tok = tok2
      · rw [← hne, ho] at hauth
        rcases hauth with h | h
        · exact absurd h.symm hc9
        · rw [hop c] at h
          exact Bool.noConfusion h
      · exact ⟨ho, by simpa [upd, hne] using ha, hst⟩
    | setApprovalForAll c op ap =>
      rw [exec, setApprovalForAll_ok] at hex
      obtain ⟨_, hs⟩ := hex
      obtain ⟨hc0, hcmk, hcnft⟩ := hcall
      have hc9 : c ≠ s.mkAddr := hcmk
      subst hs
      have hmc : ¬ (s.mkAddr = c) := fun he => hc9 he.symm
      refine ⟨hmk, ?_, hesc⟩
      intro x
      simp [hmc]
      exact hop x
    | transferFrom c frm dst tok2 =>
      rw [exec, transferFrom_ok] at hex
      obtain ⟨hd0, hfrm, hauth, hover, hs⟩ := hex
      obtain ⟨hc0, hcmk, hcnft⟩ := hcall
      have hc9 : c ≠ s.mkAddr := hcmk
      have hc09 : c ≠ 0 := hc0
      subst hs
      refine ⟨hmk, hop, ?_⟩
      intro tok hact
      have hact2 : (s.listings tok).active = true := hact
      obtain ⟨ho, ha, hst⟩ := hesc tok hact2
      by_cases hne : tok = tok2
      · rw [← hne] at hauth
        rcases hauth hc09 with h | h | h
        · exact absurd (ho.symm.trans h).symm hc9
        · rw [ho, hop c] at h
          exact Bool.noConfusion h
        · exact absurd (ha.symm.trans h).symm hc09
      · refine ⟨by simpa [upd, hne] using ho, ?_, hst⟩
        split
        · simpa [upd, hne] using ha
        · exact ha
    | listTicket c tok2 p =>
      rw [exec] at hex
      obtain ⟨_, _, _, _, hval, _, _, _, _, _, _, _, _, hs⟩ := listTicket_ok_inv hex
      subst hs
      refine ⟨hmk, hop, ?_⟩
      intro tok hact
      by_cases hne : tok = tok2
      · subst hne
        exact ⟨by simp [upd], by simp [upd], hval⟩
      · have hact2 : (s.listings tok).active = true := by
          simpa [upd, hne] using hact
        obtain ⟨ho, ha, hst⟩ := hesc tok hact2
        exact ⟨by simpa [upd, hne] using ho, by simpa [upd, hne] using ha, hst⟩
    | cancelListing c tok2 =>
      rw [exec] at hex
      obtain ⟨_, _, _, _, _, hs⟩ := cancelListing_ok_inv hex
      subst hs
      refine ⟨hmk, hop, ?_⟩
      intro tok hact
      by_cases hne : tok = tok2
      · subst hne
        simp [upd] at hact
      · have hact2 : (s.listings tok).active = true := by
          simpa [upd, hne] using hact
        obtain ⟨ho, ha, hst⟩ := hesc tok hact2
        refine ⟨by simpa [upd, hne] using ho, ?_, hst⟩
        split
        · simpa [upd, hne] using ha
        · exact ha
    | buyResale c tok2 v =>
      rw [exec, map_ok] at hex
      obtain ⟨⟨sx, tr⟩, hp2, hfst⟩ := hex
      have hs' : sx = s' := hfst
      subst hs'
      obtain ⟨_, _, _, _, _, _, _, _, _, _, _, bal, hs⟩ := buyResale_ok_inv hp2
      subst hs
      refine ⟨hmk, hop, ?_⟩
      intro tok hact
      by_cases hne : tok = tok2
      · subst hne
        simp [upd] at hact
      · have hact2 : (s.listings tok).active = true := by
          simpa [upd, hne] using hact
        obtain ⟨ho, ha, hst⟩ := hesc tok hact2
        refine ⟨by simpa [upd, hne] using ho, ?_, hst⟩
        split
        · simpa [upd, hne] using ha
        · exact ha
    | buyPrimary c eid q v =>
      rw [exec] at hex
      obtain ⟨_, _, _, _, hlist, _, _, _, _, hmka, _, _, htap, hoap, _, hwn⟩ :=
        buyPrimary_ok_inv hex
      refine ⟨fun he => hmk (hmka ▸ he), ?_, ?_⟩
      · intro x
        rw [hmka, hoap]
        exact hop x
      · intro tok hact
        rw [hlist] at hact
        obtain ⟨ho, ha, hst⟩ := hesc tok hact
        have hown : s.ownerOf tok ≠ 0 := fun he => hmk (ho.symm.trans he)
        obtain ⟨hw1, hw2, _⟩ := hwn tok hown
        exact ⟨hw1.trans (ho.trans hmka.symm), htap ▸ ha, hw2.trans hst⟩

/-- The listing trace `r1 … r7` is a sequence of legitimate steps from the
deployment `s0w`, under any trace restriction holding at each of its acts. -/
theorem reachP_r7 {P : Chain → Act → Prop}
    (h1 : P s0w (Act.createEvent 5 101 0 10 10 100))
    (h2 : P r1 (Act.setEventConfig 5 1 true 20000 0 500))
    (h3 : P r2 (Act.grantRole 1 Role.minterRole 7))
    (h4 : P r3 (Act.mintTo 7 6 1))
    (h5 : P r4 (Act.setMarketplace 1 100))
    (h6 : P r5 (Act.approve 6 100 1))
    (h7 : P r6 (Act.listTicket 6 1 200)) :
    ReachP P s0w r7 := by
  have s1 : StepP P s0w r1 :=
    stepP_applyAct (Act.createEvent 5 101 0 10 10 100) s0w
      ⟨by decide, by decide, by decide⟩ ⟨_, rfl⟩ h1
  have s2 : StepP P r1 r2 :=
    stepP_applyAct (Act.setEventConfig 5 1 true 20000 0 500) r1
      ⟨by decide, by decide, by decide⟩ ⟨_, rfl⟩ h2
  have s3 : StepP P r2 r3 :=
    stepP_applyAct (Act.grantRole 1 Role.minterRole 7) r2
      ⟨by decide, by decide, by decide⟩ ⟨_, rfl⟩ h3
  have s4 : StepP P r3 r4 :=
    stepP_applyAct (Act.mintTo 7 6 1) r3
      ⟨by decide, by decide, by decide⟩ ⟨_, rfl⟩ h4
  have s5 : StepP P r4 r5 :=
    stepP_applyAct (Act.setMarketplace 1 100) r4
      ⟨by decide, by decide, by decide⟩ ⟨_, rfl⟩ h5
  have s6 : StepP P r5 r6 :=
    stepP_applyAct (Act.approve 6 100 1) r5
      ⟨by decide, by decide, by decide⟩ ⟨_, rfl⟩ h6
  have s7 : StepP P r6 r7 :=
    stepP_applyAct (Act.listTicket 6 1 200) r6
      ⟨by decide, by decide, by decide⟩ ⟨_, rfl⟩ h7
  exact Relation.ReflTransGen.tail (Relation.ReflTransGen.tail (Relation.ReflTransGen.tail
    (Relation.ReflTransGen.tail (Relation.ReflTransGen.tail (Relation.ReflTransGen.tail
      (Relation.ReflTransGen.tail Relation.ReflTransGen.refl s1) s2) s3) s4) s5) s6) s7

def c5end : Chain := applyAct (Act.setStatus 1 1 TicketStatus.USED) r7

/-- Counterexample to C5 as stated: on a reachable state with an actively
listed (escrowed) ticket, the admin `setStatus` override succeeds and moves
the ticket to USED while its listing remains active — the listing is no
longer backed by a VALID ticket. -/
theorem C5_counterexample :
    Reachable c5end ∧ (c5end.listings 1).active = true ∧
    c5end.statusOf 1 = TicketStatus.USED := by
  refine ⟨⟨wParams, wParamsOk, ?_⟩, by rfl, by rfl⟩
  have h7 : ReachP (fun _ _ => True) s0w r7 :=
    reachP_r7 trivial trivial trivial trivial trivial trivial trivial
  have h8 : StepP (fun _ _ => True) r7 c5end :=
    stepP_applyAct (Act.setStatus 1 1 TicketStatus.USED) r7
      ⟨by decide, by decide, by decide⟩ ⟨_, rfl⟩ trivial
  exact Relation.ReflTransGen.tail h7 h8

/-- Witness for C5 at a concrete reachable state: `r7` is reachable under the
restriction, its token 1 is actively listed, and the invariant yields that the
ticket sits in Marketplace escrow, unapproved and VALID. -/
theorem C5_witness :
    (r7.listings 1).active = true ∧
    r7.ownerOf 1 = r7.mkAddr ∧ r7.tokenApproval 1 = 0 ∧
    r7.statusOf 1 = TicketStatus.VALID := by
  have h := C5_escrow_invariant r7
    ⟨wParams, wParamsOk, by
      refine reachP_r7 ?_ ?_ ?_ ?_ ?_ ?_ ?_ <;> trivial⟩
  exact ⟨by rfl, h.2.2 1 (by rfl)⟩

/-! ## Claim C6 -/

/-- Trace restriction under which the price-cap invariant survives: a
`setEventConfig` call may change an event's resale cap only if every active
listing of that event already fits under the new cap. -/
def C6Ok (s : Chain) : Act → Prop
  | Act.setEventConfig _ eid _ cap _ _ =>
      ∀ tok, (s.listings tok).active = true → s.eventIdOf tok = eid →
        (s.listings tok).priceWei ≤ (s.events eid).basePriceWei * cap / 10000
  | _ => True

/-- The price-cap invariant of the spec, with the auxiliary facts carried by
the induction: events at a not-yet-allocated id are still default, and every
active listing refers to an owned ticket of an existing event whose price
fits under the event's current resale cap. -/
def PriceCapInv (s : Chain) : Prop :=
  s.mkAddr ≠ 0 ∧
  (∀ e, s.nextEventId ≤ e → s.events e = defaultEvent) ∧
  (∀ tok, (s.listings tok).active = true →
    s.ownerOf tok ≠ 0 ∧
    (s.events (s.eventIdOf tok)).organizer ≠ 0 ∧
    (s.listings tok).priceWei ≤
      (s.events (s.eventIdOf tok)).basePriceWei *
        (s.eventConfig (s.eventIdOf tok)).resaleCapBps / 10000)

/-- C6 (amended): in every state reachable while `setEventConfig` is only
applied when all active listings of the event fit under the new cap, each
active listing's price is at most basePrice × resaleCapBps / 10000 under the
current config. The restriction is needed: the source re-checks nothing at
`setEventConfig`, so lowering the cap under an active listing leaves that
listing priced above the cap (see the counterexample). -/
theorem C6_price_cap : ∀ s, ReachableP C6Ok s → PriceCapInv s := by
  refine reachP_ind ?_ ?_
  · intro p hp
    refine ⟨hp.2.2.1, fun e he => rfl, ?_⟩
    intro tok h
    simp [initChain, defaultListing] at h
  · rintro s s' hInv ⟨a, ⟨hcall, hex⟩, hP⟩
    obtain ⟨hmk, hfresh, hesc⟩ := hInv
    cases a with
    | updateIdentity c w hh m b ex =>
      rw [exec, updateIdentity_ok] at hex
      obtain ⟨_, _, _, hs⟩ := hex
      subst hs; exact ⟨hmk, hfresh, hesc⟩
    | setOracle c n =>
      rw [exec, setOracle_ok] at hex
      obtain ⟨_, _, hs⟩ := hex
      subst hs; exact ⟨hmk, hfresh, hesc⟩
    | grantRole c r acct =>
      rw [exec, grantRole_ok] at hex
      obtain ⟨_, hs⟩ := hex
      cases r <;> (subst hs; exact ⟨hmk, hfresh, hesc⟩)
    | setMarketplace c n =>
      rw [exec, setMarketplace_ok] at hex
      obtain ⟨_, _, hs⟩ := hex
      subst hs; exact ⟨hmk, hfresh, hesc⟩
    | approve c dst tok2 =>
      rw [exec, approve_ok] at hex
      obtain ⟨_, _, hs⟩ := hex
      subst hs; exact ⟨hmk, hfresh, hesc⟩
    | setApprovalForAll c op ap =>
      rw [exec, setApprovalForAll_ok] at hex
      obtain ⟨_, hs⟩ := hex
      subst hs; exact ⟨hmk, hfresh, hesc⟩
    | useTicket c tok2 =>
      rw [exec, useTicket_ok] at hex
      obtain ⟨_, _, _, hs⟩ := hex
      subst hs; exact ⟨hmk, hfresh, hesc⟩
    | setStatus c tok2 st =>
      rw [exec, setStatus_ok] at hex
      obtain ⟨_, _, hs⟩ := hex
      subst hs; exact ⟨hmk, hfresh, hesc⟩
    | tick dt =>
      rw [exec] at hex
      cases hex; exact ⟨hmk, hfresh, hesc⟩
    | createEvent c tc ss se es bp =>
      rw [exec, createEvent_ok] at hex
      obtain ⟨_, _, _, _, hs⟩ := hex
      subst hs
      refine ⟨hmk, ?_, ?_⟩
      · intro e he
        have he2 : s.nextEventId + 1 ≤ e := he
        have hne : e ≠ s.nextEventId := by omega
        have h3 : s.nextEventId ≤ e := by omega
        simpa [upd, hne] using hfresh e h3
      · intro tok hact
        have hact2 : (s.listings tok).active = true := hact
        obtain ⟨hown, horg, hcap⟩ := hesc tok hact2
        have hne : s.eventIdOf tok ≠ s.nextEventId := by
          intro he
          apply horg
          rw [he, hfresh s.nextEventId (le_refl _)]
          rfl
        exact ⟨hown, by simpa [upd, hne] using horg, by simpa [upd, hne] using hcap⟩
    | setCancelled c eid f =>
      rw [exec, setCancelled_ok] at hex
      obtain ⟨h1, _, hs⟩ := hex
      subst hs
      refine ⟨hmk, ?_, ?_⟩
      · intro e he
        have hne : e ≠ eid := by
          intro h2
          apply h1
          rw [← h2, hfresh e he]
          rfl
        simpa [upd, hne] using hfresh e he
      · intro tok hact
        have hact2 : (s.listings tok).active = true := hact
        obtain ⟨hown, horg, hcap⟩ := hesc tok hact2
        by_cases heq : s.eventIdOf tok = eid
        · exact ⟨hown, by simpa [upd, heq] using horg, by simpa [upd, heq] using hcap⟩
        · exact ⟨hown, by simpa [upd, heq] using horg, by simpa [upd, heq] using hcap⟩
    | setTicketContract c eid tc =>
      rw [exec, setTicketContract_ok] at hex
      obtain ⟨_, _, h1, hs⟩ := hex
      subst hs
      refine ⟨hmk, ?_, ?_⟩
      · intro e he
        have hne : e ≠ eid := by
          intro h2
          apply h1
          rw [← h2, hfresh e he]
          rfl
        simpa [upd, hne] using hfresh e he
      · intro tok hact
        have hact2 : (s.listings tok).active = true := hact
        obtain ⟨hown, horg, hcap⟩ := hesc tok hact2
        by_cases heq : s.eventIdOf tok = eid
        · exact ⟨hown, by simpa [upd, heq] using horg, by simpa [upd, heq] using hcap⟩
        · exact ⟨hown, by simpa [upd, heq] using horg, by simpa [upd, heq] using hcap⟩
    | setEventConfig c eid en cap mr roy =>
      have hP2 : ∀ tok, (s.listings tok).active = true → s.eventIdOf tok = eid →
          (s.listings tok).priceWei ≤ (s.events eid).basePriceWei * cap / 10000 := hP
      rw [exec, setEventConfig_ok] at hex
      obtain ⟨_, _, _, _, _, hs⟩ := hex
      subst hs
      refine ⟨hmk, hfresh, ?_⟩
      intro tok hact
      have hact2 : (s.listings tok).active = true := hact
      obtain ⟨hown, horg, hcap⟩ := hesc tok hact2
      by_cases heq : s.eventIdOf tok = eid
      · refine ⟨hown, horg, ?_⟩
        have h3 := hP2 tok hact2 heq
        simpa [upd, heq] using h3
      · exact ⟨hown, horg, by simpa [upd, heq] using hcap⟩
    | mintTo c dst eid =>
      rw [exec, mintTo_ok] at hex
      obtain ⟨_, _, h0, hs⟩ := hex
      subst hs
      refine ⟨hmk, hfresh, ?_⟩
      intro tok hact
      have hact2 : (s.listings tok).active = true := hact
      obtain ⟨hown, horg, hcap⟩ := hesc tok hact2
      have hne : tok ≠ s.nextTokenId := by
        intro he
        apply hown
        rw [he]
        exact h0
      exact ⟨by simpa [upd, hne] using hown, by simpa [upd, hne] using horg,
        by simpa [upd, hne] using hcap⟩
    | transferFrom c frm dst tok2 =>
      rw [exec, transferFrom_ok] at hex
      obtain ⟨hd0, _, _, _, hs⟩ := hex
      subst hs
      refine ⟨hmk, hfresh, ?_⟩
      intro tok hact
      have hact2 : (s.listings tok).active = true := hact
      obtain ⟨hown, horg, hcap⟩ := hesc tok hact2
      by_cases hne : tok = tok2
      · exact ⟨by simpa [upd, hne] using hd0, horg, hcap⟩
      · exact ⟨by simpa [upd, hne] using hown, horg, hcap⟩
    | listTicket c tok2 p =>
      rw [exec] at hex
      obtain ⟨_, _, _, _, _, horg2, _, _, _, hcap2, hmk0, _, _, hs⟩ := listTicket_ok_inv hex
      subst hs
      refine ⟨hmk, hfresh, ?_⟩
      intro tok hact
      by_cases hne : tok = tok2
      · refine ⟨?_, ?_, ?_⟩
        · rw [hne]
          simp [upd]
          exact hmk0
        · rw [hne]
          simpa [upd] using horg2
        · rw [hne]
          simpa [upd] using hcap2
      · have hact2 : (s.listings tok).active = true := by
          simpa [upd, hne] using hact
        obtain ⟨hown, horg, hcap⟩ := hesc tok hact2
        exact ⟨by simpa [upd, hne] using hown, by simpa [upd, hne] using horg,
          by simpa [upd, hne] using hcap⟩
    | cancelListing c tok2 =>
      rw [exec] at hex
      obtain ⟨_, _, hc0, _, _, hs⟩ := cancelListing_ok_inv hex
      subst hs
      refine ⟨hmk, hfresh, ?_⟩
      intro tok hact
      by_cases hne : tok = tok2
      · rw [hne] at hact
        simp [upd] at hact
      · have hact2 : (s.listings tok).active = true := by
          simpa [upd, hne] using hact
        obtain ⟨hown, horg, hcap⟩ := hesc tok hact2
        exact ⟨by simpa [upd, hne] using hown, by simpa [upd, hne] using horg,
          by simpa [upd, hne] using hcap⟩
    | buyResale c tok2 v =>
      rw [exec, map_ok] at hex
      obtain ⟨⟨sx, tr⟩, hp2, hfst⟩ := hex
      have hs9 : sx = s' := hfst
      subst hs9
      obtain ⟨_, hc0, _, _, _, _, _, _, _, _, _, bal, hs⟩ := buyResale_ok_inv hp2
      subst hs
      refine ⟨hmk, hfresh, ?_⟩
      intro tok hact
      by_cases hne : tok = tok2
      · rw [hne] at hact
        simp [upd] at hact
      · have hact2 : (s.listings tok).active = true := by
          simpa [upd, hne] using hact
        obtain ⟨hown, horg, hcap⟩ := hesc tok hact2
        exact ⟨by simpa [upd, hne] using hown, by simpa [upd, hne] using horg,
          by simpa [upd, hne] using hcap⟩
    | buyPrimary c eid q v =>
      rw [exec] at hex
      obtain ⟨_, _, _, _, hlist, hev, hcfg, _, hnev, hmka, _, _, _, _, _, hwn⟩ :=
        buyPrimary_ok_inv hex
      refine ⟨fun he => hmk (hmka ▸ he), ?_, ?_⟩
      · intro e he
        rw [hnev] at he
        rw [hev]
        exact hfresh e he
      · intro tok hact
        rw [hlist] at hact
        obtain ⟨hown, horg, hcap⟩ := hesc tok hact
        obtain ⟨hw1, hw2, hw3⟩ := hwn tok hown
        refine ⟨fun he => hown (hw1 ▸ he), ?_, ?_⟩
        · rw [hev, hw3]
          exact horg
        · rw [hlist, hev, hcfg, hw3]
          exact hcap

def c6end : Chain := applyAct (Act.setEventConfig 5 1 true 10000 0 0) r7

/-- Counterexample to C6 as stated: on a reachable state with an active
listing at price 200 (base price 100, cap 20000 bps), the organizer lowers
the cap to 10000 bps via `setEventConfig`; the call succeeds without
re-checking listings, leaving the still-active listing priced above the new
cap of 100. -/
theorem C6_counterexample :
    Reachable c6end ∧ (c6end.listings 1).active = true ∧
    ¬ ((c6end.listings 1).priceWei ≤
        (c6end.events (c6end.eventIdOf 1)).basePriceWei *
          (c6end.eventConfig (c6end.eventIdOf 1)).resaleCapBps / 10000) := by
  refine ⟨⟨wParams, wParamsOk, ?_⟩, by rfl, by decide⟩
  have h7 : ReachP (fun _ _ => True) s0w r7 :=
    reachP_r7 trivial trivial trivial trivial trivial trivial trivial
  have h8 : StepP (fun _ _ => True) r7 c6end :=
    stepP_applyAct (Act.setEventConfig 5 1 true 10000 0 0) r7
      ⟨by decide, by decide, by decide⟩ ⟨_, rfl⟩ trivial
  exact Relation.ReflTransGen.tail h7 h8

/-- Witness for C6 at a concrete reachable state: `r7` is reachable under the
restriction and its active listing of token 1 satisfies the price cap. -/
theorem C6_witness :
    (r7.listings 1).active = true ∧
    (r7.listings 1).priceWei ≤
      (r7.events (r7.eventIdOf 1)).basePriceWei *
        (r7.eventConfig (r7.eventIdOf 1)).resaleCapBps / 10000 := by
  have h := C6_price_cap r7
    ⟨wParams, wParamsOk, by
      refine reachP_r7 trivial ?_ trivial trivial trivial trivial trivial
      intro tok h2 h3
      exact Bool.noConfusion (show (false : Bool) = true from h2)⟩
  exact ⟨by rfl, (h.2.2 1 (by rfl)).2.2⟩

end BlockTicket
